import Mathlib

/-!
Shallow embedding of the fetch-and-resume ingestion pipeline of the
football-insights repository (src/ingestion/fetch_raw_round.py) and of its
paginated GET clients (src/ingestion/api_football.py,
src/ingestion/ingest_players_by_round.py,
src/ingestion/pandas_players_by_round.py), together with theorems checking
the specification's claims about them.

Modelling conventions: wall-clock time is a rational number of seconds that
advances only through the sleeps the code performs (requests themselves take
no model time); the sequence of HTTP responses to the per-fixture requests is
an oracle indexed by the request number; the success or failure of each
best-effort storage upload is a second boolean oracle indexed by the upload
number.  The optional `/status` probe (lines 122-131), which only dumps a
diagnostic file, is not modelled; neither are the `sys.exit(1)` guards for
missing environment variables (lines 22-27), which run before the pipeline
proper starts.
-/

namespace FetchRawRound

/-- Configuration read from the environment at startup:
`MAX_ATTEMPTS_PER_FIXTURE` (line 14, default 3) and `MIN_INTERVAL_SECONDS`
(line 15, default 6.5 s, the rational 13/2). -/
structure Config where
  maxAttempts : Nat
  minInterval : ℚ
deriving DecidableEq, Repr

/-- One parsed manifest record: a JSON object with a `fixture_id` key.
`status`, `attempts` and `message` are optional, mirroring `dict.get`.
The constant per-run fields `season` and `round` and the diagnostic
`updated_at` timestamp are not modelled: no claim mentions them and they are
fixed by the RunContext. -/
structure Rec where
  fixture_id : Nat
  status : Option String
  attempts : Option Nat
  message : Option String
deriving DecidableEq, Repr

/-- One physical line of `manifest.jsonl` as `load_done_map` sees it: either
it yields a record (the line is JSON and `rec["fixture_id"]` succeeds), or
reading it raises and the `except` clause skips it (not JSON, or a JSON value
without a usable `fixture_id` key). -/
inductive LineVal
  | good (r : Rec)
  | bad
deriving DecidableEq, Repr

/-- Helper for `load_done_map`: the effect of one line on the accumulated
map, `done[rec["fixture_id"]] = rec` for a readable line, nothing for a
skipped one. -/
def lineStep (m : Nat → Option Rec) : LineVal → Nat → Option Rec
  | .good r => fun k => if k = r.fixture_id then some r else m k
  | .bad => m

/-- The function `load_done_map` (fetch_raw_round.py lines 76-86): fold the
log, later lines shadowing earlier ones for the same `fixture_id`, skipping
unreadable lines.  An absent file is the empty line list. -/
def load_done_map (lines : List LineVal) : Nat → Option Rec :=
  lines.foldl lineStep (fun _ => none)

/-- A parsed JSON value, abstracted to what the pipeline inspects: whether it
is a dict (the `isinstance(j, dict)` checks), with the content left opaque. -/
inductive Jsonish
  | dict (content : Nat)
  | nonDict (content : Nat)
deriving DecidableEq, Repr

/-- True exactly when an optional parsed body is a JSON dict. -/
def isDictB : Option Jsonish → Bool
  | some (.dict _) => true
  | _ => false

/-- An HTTP response to one `/fixtures/players` request: status code,
optional `Retry-After` header value, and the parsed body (`none` when
`r.json()` raises in `get_json`, i.e. the body is not JSON). -/
structure Response where
  status : Nat
  retryAfter : Option String
  body : Option Jsonish
deriving DecidableEq, Repr

/-- Python `str.isdigit` on the ASCII fragment: nonempty and every character
a decimal digit.  Strings are handled through their character list so that
everything reduces computationally. -/
def pyIsDigit (s : String) : Bool :=
  !s.data.isEmpty && s.data.all Char.isDigit

/-- Decimal value of a digit string. -/
def digitsVal (s : String) : Nat :=
  s.data.foldl (fun n c => 10 * n + (c.toNat - 48)) 0

/-- Whitespace stripping from both ends of a character list, as Python's
`int` applies before parsing. -/
def stripChars (l : List Char) : List Char :=
  ((l.dropWhile Char.isWhitespace).reverse.dropWhile Char.isWhitespace).reverse

/-- Python `int(s)` on the fragment relevant here (a non-negative decimal
literal): surrounding whitespace is stripped and an optional leading plus
sign accepted, then the digits are read; any other shape raises `ValueError`,
modelled as `none`. -/
def pyInt (s : String) : Option Nat :=
  let t := stripChars s.data
  let u := match t with
    | c :: rest => if c = '+' then rest else t
    | [] => t
  if !u.isEmpty && u.all Char.isDigit then
    some (u.foldl (fun n c => 10 * n + (c.toNat - 48)) 0)
  else none

/-- The wait computed in the 429 branch (line 187):
`int(retry_after) if (retry_after and retry_after.isdigit()) else
min(60, int(2 ** attempts * 2))`, with `attempts` already incremented, so
1-based. -/
def computeWait (retryAfter : Option String) (attempts : Nat) : Nat :=
  match retryAfter with
  | some s => if pyIsDigit s then digitsVal s else min 60 (2 ^ attempts * 2)
  | none => min 60 (2 ^ attempts * 2)

/-- Outcome of one request/response cycle, as the spec's Resource Fetcher
describes it. -/
inductive FetchOutcome
  | success (payload : Jsonish)
  | rateLimited (wait : Nat)
  | failed (status : Nat) (msg : String)
deriving DecidableEq, Repr

/-- Classification of one response, exactly as the main loop performs it
(lines 185-199): the 429 check comes first, then
`r.status_code != 200 or not isinstance(j, dict)` is an error, everything
else is a success carrying the parsed dict. -/
def classify (r : Response) (attempts : Nat) : FetchOutcome :=
  if r.status = 429 then
    .rateLimited (computeWait r.retryAfter attempts)
  else
    match r.status == 200, r.body with
    | true, some (.dict c) => .success (.dict c)
    | _, _ => .failed r.status ("http " ++ toString r.status)

/-- Modelled from the spec for claim C5: Success exactly when the status is
200 and the body parses as JSON (no dict requirement is stated); 429 is
RateLimited; every other non-200 status or unparseable body is Failed.  The
wait is computed as in the code (claim C4 treats the wait separately). -/
def specClassify (r : Response) (attempts : Nat) : FetchOutcome :=
  if r.status = 429 then
    .rateLimited (computeWait r.retryAfter attempts)
  else
    match r.status == 200, r.body with
    | true, some j => .success j
    | _, _ => .failed r.status ("http " ++ toString r.status)

/-- Mutable state of one pipeline run.  `time` is the model clock,
`lastReqTs` the `last_request_ts` variable, `manifest` the records appended
to the local log during the run, `payloads` the fixture ids whose payload
file exists, `fetchLog` every outbound per-fixture request as a pair of
fixture id and timestamp, `oracleIdx` the count of those requests, `upIdx`
the count of storage-upload attempts and `upFails` the count of swallowed
upload failures (the warning prints). -/
structure St where
  time : ℚ
  lastReqTs : Option ℚ
  manifest : List Rec
  payloads : List Nat
  okCount : Nat
  skipCount : Nat
  errCount : Nat
  fetchLog : List (Nat × ℚ)
  oracleIdx : Nat
  upIdx : Nat
  upFails : Nat
deriving DecidableEq, Repr

/-- The function `sleep_for_rate_limit` (lines 114-120): returns the new
`last_request_ts`, which is also the moment the next request goes out.  With
no previous request it returns the current time; otherwise it sleeps off the
missing part of `MIN_INTERVAL_SECONDS` first. -/
def sleep_for_rate_limit (cfg : Config) (now : ℚ) (last : Option ℚ) : ℚ :=
  match last with
  | none => now
  | some t => if now - t < cfg.minInterval then t + cfg.minInterval else now

/-- One best-effort storage upload: the `upOk` oracle decides whether this
`sb_upload_*` call succeeds; a failure is caught, logged and only counted, it
changes nothing else (lines 92-101, 202-205). -/
def tryUpload (upOk : Nat → Bool) (st : St) : St :=
  if upOk st.upIdx then
    { st with upIdx := st.upIdx + 1 }
  else
    { st with upIdx := st.upIdx + 1, upFails := st.upFails + 1 }

/-- The function `append_manifest` (lines 88-101): write the record to the
local log, then best-effort re-upload the whole log to remote storage. -/
def append_manifest (upOk : Nat → Bool) (r : Rec) (st : St) : St :=
  tryUpload upOk { st with manifest := st.manifest ++ [r] }

/-- Success-branch persistence (lines 200-205): write the payload file
locally, then best-effort upload it to remote storage. -/
def persistPayload (upOk : Nat → Bool) (fid : Nat) (st : St) : St :=
  tryUpload upOk { st with payloads := st.payloads ++ [fid] }

/-- The per-item retry loop (lines 179-212), fuelled.  The wrapper inside
`processItem` passes `cfg.maxAttempts` fuel, which always suffices because
every iteration increments `attempts` and the guard requires
`attempts < cfg.maxAttempts`.  Returns the final state together with the
final value of `attempts`. -/
def retryGo (cfg : Config) (oracle : Nat → Response) (upOk : Nat → Bool)
    (fid : Nat) : Nat → Nat → St → St × Nat
  | 0, attempts, st => (st, attempts)
  | fuel + 1, attempts, st =>
    if attempts < cfg.maxAttempts then
      let a := attempts + 1
      let ts := sleep_for_rate_limit cfg st.time st.lastReqTs
      let r := oracle st.oracleIdx
      let st1 : St :=
        { st with time := ts, lastReqTs := some ts,
                  fetchLog := st.fetchLog ++ [(fid, ts)],
                  oracleIdx := st.oracleIdx + 1 }
      match classify r a with
      | .rateLimited wait =>
          retryGo cfg oracle upOk fid fuel a
            { st1 with time := st1.time + (wait : ℚ) }
      | .failed code _ =>
          let recErr : Rec :=
            ⟨fid, some "error", some a, some ("http " ++ toString code)⟩
          retryGo cfg oracle upOk fid fuel a (append_manifest upOk recErr st1)
      | .success _ =>
          let st2 := persistPayload upOk fid st1
          let recOk : Rec :=
            ⟨fid, some "ok", some a,
             some ("saved:players_" ++ toString fid ++ ".json")⟩
          let st3 := append_manifest upOk recOk st2
          ({ st3 with okCount := st3.okCount + 1 }, a)
    else (st, attempts)

/-- The resume-skip test applied to the manifest entry of an item:
`prev and prev.get("status") == "ok"` (line 173). -/
def statusIsOk : Option Rec → Bool
  | some r => r.status = some "ok"
  | none => false

/-- Attempt initialisation from the manifest:
`(prev or empty dict).get("attempts", 0)` (line 177). -/
def prevAttempts : Option Rec → Nat
  | some r => r.attempts.getD 0
  | none => 0

/-- Processing of one fixture by the main loop (lines 167-216): skip when
the last manifest record says ok or the payload file exists, otherwise run
the retry loop starting from the recorded attempt count, and count the item
as given up when the loop ends with the budget consumed and no payload. -/
def processItem (cfg : Config) (oracle : Nat → Response) (upOk : Nat → Bool)
    (doneMap : Nat → Option Rec) (st : St) (fid : Nat) : St :=
  let prev := doneMap fid
  if statusIsOk prev ∨ fid ∈ st.payloads then
    { st with skipCount := st.skipCount + 1 }
  else
    let p := retryGo cfg oracle upOk fid cfg.maxAttempts (prevAttempts prev) st
    if cfg.maxAttempts ≤ p.2 ∧ fid ∉ p.1.payloads then
      { p.1 with errCount := p.1.errCount + 1 }
    else p.1

/-- Response to the single `/fixtures` list request: status code and, when
the body is a JSON dict, the fixture ids found under its `response` key
(the nested `fx["fixture"]["id"]` access is flattened into the list). -/
structure FixturesResponse where
  status : Nat
  body : Option (List Nat)
deriving DecidableEq, Repr

/-- Outcome of a whole run.  `fatal` is the `sys.exit(1)` taken when the
fixtures fetch fails (lines 139-141); `emptyExit` the `sys.exit(0)` taken
when the round has no fixtures, after dumping the list of valid rounds
(lines 150-157). -/
inductive RunResult
  | fatal
  | emptyExit
  | done (st : St)
deriving DecidableEq, Repr

/-- Work-list resolution (lines 134-147): use the cached `fixtures.json`
when present, else fetch the list once, failing the run unless the status is
200 and the body is a dict, and best-effort mirror the fresh file to
storage. -/
def getFixtures (upOk : Nat → Bool) (cached : Option (List Nat))
    (resp : FixturesResponse) (st : St) : Option (List Nat × St) :=
  match cached with
  | some fxs => some (fxs, st)
  | none =>
    match resp.status == 200, resp.body with
    | true, some fxs => some (fxs, tryUpload upOk st)
    | _, _ => none

/-- The initial run state: clock at zero, no previous request, nothing
appended, no payload files, all counters zero. -/
def initSt : St := ⟨0, none, [], [], 0, 0, 0, [], 0, 0, 0⟩

/-- The whole run (lines 133-218), starting after configuration validation
and the diagnostic `/status` probe: resolve the work list, load the resume
map from the manifest lines already on disk, then fold the per-item
processing over the fixtures in list order. -/
def runPipeline (cfg : Config) (oracle : Nat → Response) (upOk : Nat → Bool)
    (cached : Option (List Nat)) (resp : FixturesResponse)
    (doneLines : List LineVal) (st0 : St) : RunResult :=
  match getFixtures upOk cached resp st0 with
  | none => .fatal
  | some (fxs, st1) =>
    if fxs.isEmpty then .emptyExit
    else
      .done (fxs.foldl (processItem cfg oracle upOk (load_done_map doneLines)) st1)

/-- Number of outbound per-fixture requests issued so far for a given
fixture id. -/
def fetchesFor (fid : Nat) (st : St) : Nat :=
  (st.fetchLog.filter (fun e => e.1 == fid)).length

/-- Well-spacedness of the request log: consecutive outbound requests are at
least `MIN_INTERVAL_SECONDS` apart, and `last_request_ts` is the timestamp
of the last logged request. -/
def spacedLog (cfg : Config) (st : St) : Prop :=
  st.lastReqTs = st.fetchLog.getLast?.map Prod.snd ∧
    List.Chain' (fun a b : Nat × ℚ => a.2 + cfg.minInterval ≤ b.2) st.fetchLog

/-- A response on which the loop always takes the error branch: not a 429,
and not a 200 carrying a JSON dict. -/
def failsAlways (r : Response) : Prop :=
  r.status ≠ 429 ∧ ¬(r.status = 200 ∧ isDictB r.body = true)

/-- A response on which the loop takes the success branch. -/
def succResp (r : Response) : Prop :=
  r.status = 200 ∧ isDictB r.body = true

/-- Normalisation of a run result that forgets the count of swallowed upload
failures, the one field the upload oracle may influence. -/
def scrub : RunResult → RunResult
  | .done st => .done { st with upFails := 0 }
  | r => r

end FetchRawRound

namespace Paging

/-- The `paging` object of a page response; either key may be absent. -/
structure PageMeta where
  current : Option Nat
  total : Option Nat
deriving DecidableEq, Repr

/-- One page response: the items list (empty when the key is absent or
null) and the optional `paging` object. -/
structure PageResponse where
  items : List Nat
  paging : Option PageMeta
deriving DecidableEq, Repr

/-- The expression `paging.get("current", 1)` with a missing `paging` object
behaving as the empty dict. -/
def curOf (p : PageResponse) : Nat :=
  match p.paging with
  | some m => m.current.getD 1
  | none => 1

/-- The expression `paging.get("total", 1)` with a missing `paging` object
behaving as the empty dict. -/
def totOf (p : PageResponse) : Nat :=
  match p.paging with
  | some m => m.total.getD 1
  | none => 1

/-- The stop test of the two `fixtures_for_round` variants:
`paging.get("current", 1) >= paging.get("total", 1)`. -/
def pagingStop (p : PageResponse) : Bool :=
  totOf p ≤ curOf p

/-- The generator `paged_get` (api_football.py lines 14-25), with the server
modelled as the finite list of successive page responses; a request past the
end of the list returns an empty page, on which the generator stops.  The
value is the concatenation of the items yielded. -/
def paged_get : List PageResponse → List Nat
  | [] => []
  | p :: rest => if p.items.isEmpty then [] else p.items ++ paged_get rest

/-- The function `fixtures_for_round` (ingest_players_by_round.py lines
62-73; pandas_players_by_round.py lines 44-55 has the same logic): extend
the output with the page's items, stop when `current >= total` with both
defaulting to 1, else request the next page.  A request past the modelled
list returns an empty page with no paging object, on which the default stops
the loop. -/
def fixtures_for_round : List PageResponse → List Nat
  | [] => []
  | p :: rest => p.items ++ (if pagingStop p then [] else fixtures_for_round rest)

/-- Modelled from the spec for claim C9: collect the items of successive
pages, stopping at (and including) the first page that satisfies `stop`. -/
def collectUntilStop (stop : PageResponse → Bool) : List PageResponse → List Nat
  | [] => []
  | p :: rest => p.items ++ (if stop p then [] else collectUntilStop stop rest)

/-- The claim's stopping condition: the page's items collection is empty or
the paging metadata satisfies current at least total. -/
def claimStop (p : PageResponse) : Bool :=
  p.items.isEmpty || pagingStop p

end Paging

namespace FetchRawRound

/-! Basic facts about the state operations. -/

@[simp] theorem tryUpload_time (u : Nat → Bool) (st : St) :
    (tryUpload u st).time = st.time := by
  unfold tryUpload; split <;> rfl

@[simp] theorem tryUpload_lastReqTs (u : Nat → Bool) (st : St) :
    (tryUpload u st).lastReqTs = st.lastReqTs := by
  unfold tryUpload; split <;> rfl

@[simp] theorem tryUpload_manifest (u : Nat → Bool) (st : St) :
    (tryUpload u st).manifest = st.manifest := by
  unfold tryUpload; split <;> rfl

@[simp] theorem tryUpload_payloads (u : Nat → Bool) (st : St) :
    (tryUpload u st).payloads = st.payloads := by
  unfold tryUpload; split <;> rfl

@[simp] theorem tryUpload_okCount (u : Nat → Bool) (st : St) :
    (tryUpload u st).okCount = st.okCount := by
  unfold tryUpload; split <;> rfl

@[simp] theorem tryUpload_skipCount (u : Nat → Bool) (st : St) :
    (tryUpload u st).skipCount = st.skipCount := by
  unfold tryUpload; split <;> rfl

@[simp] theorem tryUpload_errCount (u : Nat → Bool) (st : St) :
    (tryUpload u st).errCount = st.errCount := by
  unfold tryUpload; split <;> rfl

@[simp] theorem tryUpload_fetchLog (u : Nat → Bool) (st : St) :
    (tryUpload u st).fetchLog = st.fetchLog := by
  unfold tryUpload; split <;> rfl

@[simp] theorem tryUpload_oracleIdx (u : Nat → Bool) (st : St) :
    (tryUpload u st).oracleIdx = st.oracleIdx := by
  unfold tryUpload; split <;> rfl

@[simp] theorem tryUpload_upIdx (u : Nat → Bool) (st : St) :
    (tryUpload u st).upIdx = st.upIdx + 1 := by
  unfold tryUpload; split <;> rfl

@[simp] theorem append_manifest_manifest (u : Nat → Bool) (r : Rec) (st : St) :
    (append_manifest u r st).manifest = st.manifest ++ [r] := by
  unfold append_manifest; simp

@[simp] theorem append_manifest_time (u : Nat → Bool) (r : Rec) (st : St) :
    (append_manifest u r st).time = st.time := by
  unfold append_manifest; simp

@[simp] theorem append_manifest_lastReqTs (u : Nat → Bool) (r : Rec) (st : St) :
    (append_manifest u r st).lastReqTs = st.lastReqTs := by
  unfold append_manifest; simp

@[simp] theorem append_manifest_payloads (u : Nat → Bool) (r : Rec) (st : St) :
    (append_manifest u r st).payloads = st.payloads := by
  unfold append_manifest; simp

@[simp] theorem append_manifest_okCount (u : Nat → Bool) (r : Rec) (st : St) :
    (append_manifest u r st).okCount = st.okCount := by
  unfold append_manifest; simp

@[simp] theorem append_manifest_skipCount (u : Nat → Bool) (r : Rec) (st : St) :
    (append_manifest u r st).skipCount = st.skipCount := by
  unfold append_manifest; simp

@[simp] theorem append_manifest_errCount (u : Nat → Bool) (r : Rec) (st : St) :
    (append_manifest u r st).errCount = st.errCount := by
  unfold append_manifest; simp

@[simp] theorem append_manifest_fetchLog (u : Nat → Bool) (r : Rec) (st : St) :
    (append_manifest u r st).fetchLog = st.fetchLog := by
  unfold append_manifest; simp

@[simp] theorem append_manifest_oracleIdx (u : Nat → Bool) (r : Rec) (st : St) :
    (append_manifest u r st).oracleIdx = st.oracleIdx := by
  unfold append_manifest; simp

@[simp] theorem append_manifest_upIdx (u : Nat → Bool) (r : Rec) (st : St) :
    (append_manifest u r st).upIdx = st.upIdx + 1 := by
  unfold append_manifest; simp

@[simp] theorem persistPayload_payloads (u : Nat → Bool) (fid : Nat) (st : St) :
    (persistPayload u fid st).payloads = st.payloads ++ [fid] := by
  unfold persistPayload; simp

@[simp] theorem persistPayload_manifest (u : Nat → Bool) (fid : Nat) (st : St) :
    (persistPayload u fid st).manifest = st.manifest := by
  unfold persistPayload; simp

@[simp] theorem persistPayload_time (u : Nat → Bool) (fid : Nat) (st : St) :
    (persistPayload u fid st).time = st.time := by
  unfold persistPayload; simp

@[simp] theorem persistPayload_lastReqTs (u : Nat → Bool) (fid : Nat) (st : St) :
    (persistPayload u fid st).lastReqTs = st.lastReqTs := by
  unfold persistPayload; simp

@[simp] theorem persistPayload_okCount (u : Nat → Bool) (fid : Nat) (st : St) :
    (persistPayload u fid st).okCount = st.okCount := by
  unfold persistPayload; simp

@[simp] theorem persistPayload_skipCount (u : Nat → Bool) (fid : Nat) (st : St) :
    (persistPayload u fid st).skipCount = st.skipCount := by
  unfold persistPayload; simp

@[simp] theorem persistPayload_errCount (u : Nat → Bool) (fid : Nat) (st : St) :
    (persistPayload u fid st).errCount = st.errCount := by
  unfold persistPayload; simp

@[simp] theorem persistPayload_fetchLog (u : Nat → Bool) (fid : Nat) (st : St) :
    (persistPayload u fid st).fetchLog = st.fetchLog := by
  unfold persistPayload; simp

@[simp] theorem persistPayload_oracleIdx (u : Nat → Bool) (fid : Nat) (st : St) :
    (persistPayload u fid st).oracleIdx = st.oracleIdx := by
  unfold persistPayload; simp

@[simp] theorem persistPayload_upIdx (u : Nat → Bool) (fid : Nat) (st : St) :
    (persistPayload u fid st).upIdx = st.upIdx + 1 := by
  unfold persistPayload; simp

/-! Classification case lemmas. -/

theorem classify_of_429 (r : Response) (a : Nat) (hr : r.status = 429) :
    classify r a = .rateLimited (computeWait r.retryAfter a) := by
  simp [classify, hr]

theorem classify_of_fail (r : Response) (a : Nat) (hr : failsAlways r) :
    classify r a = .failed r.status ("http " ++ toString r.status) := by
  obtain ⟨h429, hnot⟩ := hr
  unfold classify
  rw [if_neg h429]
  split
  · next c h1 h2 =>
      exact absurd ⟨by simpa using h1, by simp [isDictB, h2]⟩ hnot
  · rfl

theorem classify_of_succ (r : Response) (a : Nat) (hr : succResp r) :
    ∃ c, r.body = some (.dict c) ∧ classify r a = .success (.dict c) := by
  obtain ⟨h200, hd⟩ := hr
  cases hb : r.body with
  | none => simp [isDictB, hb] at hd
  | some j =>
      cases j with
      | dict c => exact ⟨c, rfl, by simp [classify, h200, hb]⟩
      | nonDict c => simp [isDictB, hb] at hd

/-! Rate-limiter lower bound. -/

theorem sleep_lb (cfg : Config) (now t : ℚ) :
    t + cfg.minInterval ≤ sleep_for_rate_limit cfg now (some t) := by
  simp only [sleep_for_rate_limit]
  split
  · exact le_refl _
  · next h => linarith [not_lt.mp h]

/-! Unfolding lemmas for the retry loop. -/

theorem retryGo_zero (cfg : Config) (oracle : Nat → Response) (u : Nat → Bool)
    (fid a : Nat) (st : St) : retryGo cfg oracle u fid 0 a st = (st, a) := rfl

theorem retryGo_stuck (cfg : Config) (oracle : Nat → Response) (u : Nat → Bool)
    (fid : Nat) (a : Nat) (h : cfg.maxAttempts ≤ a) :
    ∀ (fuel : Nat) (st : St), retryGo cfg oracle u fid fuel a st = (st, a)
  | 0, st => rfl
  | fuel + 1, st => by simp [retryGo, Nat.not_lt.mpr h]

theorem retryGo_429 (cfg : Config) (oracle : Nat → Response) (u : Nat → Bool)
    (fid fuel a : Nat) (st : St) (w : Nat) (h : a < cfg.maxAttempts)
    (hc : classify (oracle st.oracleIdx) (a + 1) = .rateLimited w) :
    retryGo cfg oracle u fid (fuel + 1) a st =
      retryGo cfg oracle u fid fuel (a + 1)
        { st with
            time := sleep_for_rate_limit cfg st.time st.lastReqTs + (w : ℚ),
            lastReqTs := some (sleep_for_rate_limit cfg st.time st.lastReqTs),
            fetchLog := st.fetchLog ++ [(fid, sleep_for_rate_limit cfg st.time st.lastReqTs)],
            oracleIdx := st.oracleIdx + 1 } := by
  simp [retryGo, h, hc]

theorem retryGo_fail (cfg : Config) (oracle : Nat → Response) (u : Nat → Bool)
    (fid fuel a : Nat) (st : St) (code : Nat) (msg : String) (h : a < cfg.maxAttempts)
    (hc : classify (oracle st.oracleIdx) (a + 1) = .failed code msg) :
    retryGo cfg oracle u fid (fuel + 1) a st =
      retryGo cfg oracle u fid fuel (a + 1)
        (append_manifest u
          ⟨fid, some "error", some (a + 1), some ("http " ++ toString code)⟩
          { st with
              time := sleep_for_rate_limit cfg st.time st.lastReqTs,
              lastReqTs := some (sleep_for_rate_limit cfg st.time st.lastReqTs),
              fetchLog := st.fetchLog ++ [(fid, sleep_for_rate_limit cfg st.time st.lastReqTs)],
              oracleIdx := st.oracleIdx + 1 }) := by
  simp [retryGo, h, hc]

theorem retryGo_succ (cfg : Config) (oracle : Nat → Response) (u : Nat → Bool)
    (fid fuel a : Nat) (st : St) (j : Jsonish) (h : a < cfg.maxAttempts)
    (hc : classify (oracle st.oracleIdx) (a + 1) = .success j) :
    retryGo cfg oracle u fid (fuel + 1) a st =
      (let st3 :=
        append_manifest u
          ⟨fid, some "ok", some (a + 1),
           some ("saved:players_" ++ toString fid ++ ".json")⟩
          (persistPayload u fid
            { st with
                time := sleep_for_rate_limit cfg st.time st.lastReqTs,
                lastReqTs := some (sleep_for_rate_limit cfg st.time st.lastReqTs),
                fetchLog := st.fetchLog ++ [(fid, sleep_for_rate_limit cfg st.time st.lastReqTs)],
                oracleIdx := st.oracleIdx + 1 })
       ({ st3 with okCount := st3.okCount + 1 }, a + 1)) := by
  simp [retryGo, h, hc]

/-! Shape of the request log across the retry loop: everything it appends is
a request for the item being processed, at most the remaining budget. -/

theorem retryGo_log_shape (cfg : Config) (oracle : Nat → Response) (u : Nat → Bool)
    (fid : Nat) : ∀ (fuel a : Nat) (st : St),
    ∃ tail, (retryGo cfg oracle u fid fuel a st).1.fetchLog = st.fetchLog ++ tail ∧
      (∀ e ∈ tail, e.1 = fid) ∧ tail.length ≤ cfg.maxAttempts - a := by
  intro fuel
  induction fuel with
  | zero =>
      intro a st
      exact ⟨[], by simp [retryGo_zero], by simp, by simp⟩
  | succ fuel ih =>
      intro a st
      by_cases h : a < cfg.maxAttempts
      · cases hc : classify (oracle st.oracleIdx) (a + 1) with
        | success j =>
            rw [retryGo_succ cfg oracle u fid fuel a st j h hc]
            refine ⟨[(fid, sleep_for_rate_limit cfg st.time st.lastReqTs)], by simp, by simp, ?_⟩
            simp
            omega
        | rateLimited w =>
            rw [retryGo_429 cfg oracle u fid fuel a st w h hc]
            obtain ⟨tail, h1, h2, h3⟩ := ih (a + 1) _
            refine ⟨(fid, sleep_for_rate_limit cfg st.time st.lastReqTs) :: tail, ?_, ?_, ?_⟩
            · rw [h1]; simp
            · intro e he
              rcases List.mem_cons.mp he with he | he
              · rw [he]
              · exact h2 e he
            · simp
              omega
        | failed code msg =>
            rw [retryGo_fail cfg oracle u fid fuel a st code msg h hc]
            obtain ⟨tail, h1, h2, h3⟩ := ih (a + 1) _
            refine ⟨(fid, sleep_for_rate_limit cfg st.time st.lastReqTs) :: tail, ?_, ?_, ?_⟩
            · rw [h1]; simp
            · intro e he
              rcases List.mem_cons.mp he with he | he
              · rw [he]
              · exact h2 e he
            · simp
              omega
      · rw [retryGo_stuck cfg oracle u fid a (Nat.le_of_not_lt h)]
        exact ⟨[], by simp, by simp, by simp⟩

/-! When the loop ends without a success for the item, it has spent the whole
remaining budget, one outbound request per remaining attempt, and has changed
neither the payload set nor the success count. -/

theorem retryGo_noSucc (cfg : Config) (oracle : Nat → Response) (u : Nat → Bool)
    (fid : Nat) : ∀ (fuel a : Nat) (st : St),
    fid ∉ st.payloads →
    fid ∉ (retryGo cfg oracle u fid fuel a st).1.payloads →
    cfg.maxAttempts ≤ a + fuel →
    (retryGo cfg oracle u fid fuel a st).1.payloads = st.payloads ∧
      (retryGo cfg oracle u fid fuel a st).2 = max a cfg.maxAttempts ∧
      (retryGo cfg oracle u fid fuel a st).1.fetchLog.length =
        st.fetchLog.length + (cfg.maxAttempts - a) ∧
      (retryGo cfg oracle u fid fuel a st).1.okCount = st.okCount := by
  intro fuel
  induction fuel with
  | zero =>
      intro a st _ _ hfuel
      rw [retryGo_zero]
      refine ⟨rfl, ?_, ?_, rfl⟩
      · simp only [Prod.snd]
        omega
      · simp only [Prod.fst]
        omega
  | succ fuel ih =>
      intro a st hfid hno hfuel
      by_cases h : a < cfg.maxAttempts
      · cases hc : classify (oracle st.oracleIdx) (a + 1) with
        | success j =>
            rw [retryGo_succ cfg oracle u fid fuel a st j h hc] at hno
            simp at hno
        | rateLimited w =>
            rw [retryGo_429 cfg oracle u fid fuel a st w h hc] at hno ⊢
            obtain ⟨h1, h2, h3, h4⟩ := ih (a + 1) _ (by simpa using hfid) hno (by omega)
            refine ⟨by simpa using h1, by rw [h2]; omega, ?_, by simpa using h4⟩
            rw [h3]
            simp
            omega
        | failed code msg =>
            rw [retryGo_fail cfg oracle u fid fuel a st code msg h hc] at hno ⊢
            obtain ⟨h1, h2, h3, h4⟩ := ih (a + 1) _ (by simpa using hfid) hno (by omega)
            refine ⟨by simpa using h1, by rw [h2]; omega, ?_, by simpa using h4⟩
            rw [h3]
            simp
            omega
      · rw [retryGo_stuck cfg oracle u fid a (Nat.le_of_not_lt h)]
        refine ⟨rfl, ?_, ?_, rfl⟩
        · simp only [Prod.snd]
          omega
        · simp only [Prod.fst]
          omega

/-! Spacing of outbound requests. -/

theorem spaced_extend (cfg : Config) (st : St) (fid : Nat) (h : spacedLog cfg st) :
    some (sleep_for_rate_limit cfg st.time st.lastReqTs) =
      ((st.fetchLog ++ [(fid, sleep_for_rate_limit cfg st.time st.lastReqTs)]).getLast?).map
        Prod.snd ∧
    List.Chain' (fun a b : Nat × ℚ => a.2 + cfg.minInterval ≤ b.2)
      (st.fetchLog ++ [(fid, sleep_for_rate_limit cfg st.time st.lastReqTs)]) := by
  obtain ⟨hlast, hchain⟩ := h
  constructor
  · rw [List.getLast?_concat]
    rfl
  · rw [List.chain'_append]
    refine ⟨hchain, List.chain'_singleton _, ?_⟩
    intro x hx y hy
    simp only [List.head?_cons, Option.mem_def, Option.some.injEq] at hy
    cases hl : st.fetchLog.getLast? with
    | none => rw [hl] at hx; exact absurd hx (by simp)
    | some z =>
        rw [hl] at hx
        simp only [Option.mem_def, Option.some.injEq] at hx
        rw [hl] at hlast
        have hts : st.lastReqTs = some z.2 := by simpa using hlast
        rw [← hy, ← hx]
        simpa [hts] using sleep_lb cfg st.time z.2

theorem retryGo_spaced (cfg : Config) (oracle : Nat → Response) (u : Nat → Bool)
    (fid : Nat) : ∀ (fuel a : Nat) (st : St), spacedLog cfg st →
    spacedLog cfg (retryGo cfg oracle u fid fuel a st).1 := by
  intro fuel
  induction fuel with
  | zero => intro a st h; rw [retryGo_zero]; exact h
  | succ fuel ih =>
      intro a st h
      by_cases hlt : a < cfg.maxAttempts
      · cases hc : classify (oracle st.oracleIdx) (a + 1) with
        | success j =>
            rw [retryGo_succ cfg oracle u fid fuel a st j hlt hc]
            obtain ⟨h1, h2⟩ := spaced_extend cfg st fid h
            exact ⟨by simp, by simpa using h2⟩
        | rateLimited w =>
            rw [retryGo_429 cfg oracle u fid fuel a st w hlt hc]
            apply ih
            obtain ⟨h1, h2⟩ := spaced_extend cfg st fid h
            exact ⟨by simp, by simpa using h2⟩
        | failed code msg =>
            rw [retryGo_fail cfg oracle u fid fuel a st code msg hlt hc]
            apply ih
            obtain ⟨h1, h2⟩ := spaced_extend cfg st fid h
            exact ⟨by simp, by simpa using h2⟩
      · rw [retryGo_stuck cfg oracle u fid a (Nat.le_of_not_lt hlt)]
        exact h

/-! The retry loop never touches the error and skip counters. -/

theorem retryGo_counts (cfg : Config) (oracle : Nat → Response) (u : Nat → Bool)
    (fid : Nat) : ∀ (fuel a : Nat) (st : St),
    (retryGo cfg oracle u fid fuel a st).1.errCount = st.errCount ∧
      (retryGo cfg oracle u fid fuel a st).1.skipCount = st.skipCount := by
  intro fuel
  induction fuel with
  | zero => intro a st; rw [retryGo_zero]; exact ⟨rfl, rfl⟩
  | succ fuel ih =>
      intro a st
      by_cases hlt : a < cfg.maxAttempts
      · cases hc : classify (oracle st.oracleIdx) (a + 1) with
        | success j =>
            rw [retryGo_succ cfg oracle u fid fuel a st j hlt hc]
            exact ⟨by simp, by simp⟩
        | rateLimited w =>
            rw [retryGo_429 cfg oracle u fid fuel a st w hlt hc]
            obtain ⟨h1, h2⟩ := ih (a + 1) _
            exact ⟨by rw [h1], by rw [h2]⟩
        | failed code msg =>
            rw [retryGo_fail cfg oracle u fid fuel a st code msg hlt hc]
            obtain ⟨h1, h2⟩ := ih (a + 1) _
            exact ⟨by rw [h1]; simp, by rw [h2]; simp⟩
      · rw [retryGo_stuck cfg oracle u fid a (Nat.le_of_not_lt hlt)]
        exact ⟨rfl, rfl⟩

/-! A loop run over responses that always take the error branch: it consumes
one response per remaining attempt, appends only error records for this item,
succeeds never, and touches no payload. -/

theorem retryGo_allFail (cfg : Config) (oracle : Nat → Response) (u : Nat → Bool)
    (fid : Nat) : ∀ (fuel a : Nat) (st : St),
    (∀ i, st.oracleIdx ≤ i → i < st.oracleIdx + (cfg.maxAttempts - a) →
      failsAlways (oracle i)) →
    cfg.maxAttempts ≤ a + fuel →
    (retryGo cfg oracle u fid fuel a st).1.payloads = st.payloads ∧
      (retryGo cfg oracle u fid fuel a st).1.okCount = st.okCount ∧
      (retryGo cfg oracle u fid fuel a st).1.oracleIdx =
        st.oracleIdx + (cfg.maxAttempts - a) ∧
      ∃ tail, (retryGo cfg oracle u fid fuel a st).1.manifest = st.manifest ++ tail ∧
        ∀ r ∈ tail, r.fixture_id = fid ∧ r.status = some "error" := by
  intro fuel
  induction fuel with
  | zero =>
      intro a st _ hfuel
      rw [retryGo_zero]
      refine ⟨rfl, rfl, ?_, [], by simp, by simp⟩
      simp only [Prod.fst]
      omega
  | succ fuel ih =>
      intro a st hfail hfuel
      by_cases hlt : a < cfg.maxAttempts
      · have hf0 : failsAlways (oracle st.oracleIdx) := by
          refine hfail st.oracleIdx (le_refl _) ?_
          omega
        have hc := classify_of_fail (oracle st.oracleIdx) (a + 1) hf0
        rw [retryGo_fail cfg oracle u fid fuel a st _ _ hlt hc]
        have ihx := ih (a + 1) (append_manifest u
          ⟨fid, some "error", some (a + 1),
            some ("http " ++ toString (oracle st.oracleIdx).status)⟩
          { st with time := sleep_for_rate_limit cfg st.time st.lastReqTs,
                    lastReqTs := some (sleep_for_rate_limit cfg st.time st.lastReqTs),
                    fetchLog := st.fetchLog ++
                      [(fid, sleep_for_rate_limit cfg st.time st.lastReqTs)],
                    oracleIdx := st.oracleIdx + 1 })
        simp only [append_manifest_oracleIdx, append_manifest_payloads,
          append_manifest_okCount, append_manifest_manifest] at ihx
        obtain ⟨h1, h2, h3, tail, h4, h5⟩ :=
          ihx (fun i hi1 hi2 => hfail i (by omega) (by omega)) (by omega)
        refine ⟨h1, h2, ?_, ?_⟩
        · rw [h3]; omega
        · refine ⟨⟨fid, some "error", some (a + 1),
            some ("http " ++ toString (oracle st.oracleIdx).status)⟩ :: tail, ?_, ?_⟩
          · rw [h4]; simp
          · intro r hr
            rcases List.mem_cons.mp hr with hr | hr
            · rw [hr]; exact ⟨rfl, rfl⟩
            · exact h5 r hr
      · rw [retryGo_stuck cfg oracle u fid a (Nat.le_of_not_lt hlt)]
        refine ⟨rfl, rfl, ?_, [], by simp, by simp⟩
        simp only [Prod.fst]
        omega

/-! The first attempt of the loop on a response that takes the success
branch: payload persisted, one ok record appended, loop broken. -/

theorem retryGo_first_succ (cfg : Config) (oracle : Nat → Response) (u : Nat → Bool)
    (fid fuel a : Nat) (st : St) (hlt : a < cfg.maxAttempts)
    (hs : succResp (oracle st.oracleIdx)) :
    (retryGo cfg oracle u fid (fuel + 1) a st).1.payloads = st.payloads ++ [fid] ∧
      (retryGo cfg oracle u fid (fuel + 1) a st).1.okCount = st.okCount + 1 ∧
      (retryGo cfg oracle u fid (fuel + 1) a st).1.errCount = st.errCount ∧
      (retryGo cfg oracle u fid (fuel + 1) a st).1.skipCount = st.skipCount ∧
      (retryGo cfg oracle u fid (fuel + 1) a st).1.manifest =
        st.manifest ++ [⟨fid, some "ok", some (a + 1),
          some ("saved:players_" ++ toString fid ++ ".json")⟩] ∧
      (retryGo cfg oracle u fid (fuel + 1) a st).1.oracleIdx = st.oracleIdx + 1 ∧
      (retryGo cfg oracle u fid (fuel + 1) a st).2 = a + 1 := by
  obtain ⟨c, hb, hc⟩ := classify_of_succ (oracle st.oracleIdx) (a + 1) hs
  rw [retryGo_succ cfg oracle u fid fuel a st _ hlt hc]
  refine ⟨by simp, by simp, by simp, by simp, by simp, by simp, by simp⟩

theorem retryGo_succ_start (cfg : Config) (oracle : Nat → Response) (u : Nat → Bool)
    (fid fuel a : Nat) (st : St) (hfuel : 0 < fuel) (hlt : a < cfg.maxAttempts)
    (hs : succResp (oracle st.oracleIdx)) :
    (retryGo cfg oracle u fid fuel a st).1.payloads = st.payloads ++ [fid] ∧
      (retryGo cfg oracle u fid fuel a st).1.okCount = st.okCount + 1 ∧
      (retryGo cfg oracle u fid fuel a st).1.errCount = st.errCount ∧
      (retryGo cfg oracle u fid fuel a st).1.skipCount = st.skipCount ∧
      (retryGo cfg oracle u fid fuel a st).1.manifest =
        st.manifest ++ [⟨fid, some "ok", some (a + 1),
          some ("saved:players_" ++ toString fid ++ ".json")⟩] ∧
      (retryGo cfg oracle u fid fuel a st).1.oracleIdx = st.oracleIdx + 1 ∧
      (retryGo cfg oracle u fid fuel a st).2 = a + 1 := by
  obtain ⟨f, rfl⟩ : ∃ f, fuel = f + 1 := ⟨fuel - 1, by omega⟩
  exact retryGo_first_succ cfg oracle u fid f a st hlt hs

/-! Machinery for claim C8: the state with the count of swallowed upload
failures forgotten, and the fact that every other component of a run is
independent of the upload oracle. -/

/-- Forget the count of swallowed upload failures. -/
def erase (st : St) : St := { st with upFails := 0 }

theorem erase_proj (s1 s2 : St) (h : erase s1 = erase s2) :
    s1.time = s2.time ∧ s1.lastReqTs = s2.lastReqTs ∧ s1.manifest = s2.manifest ∧
      s1.payloads = s2.payloads ∧ s1.okCount = s2.okCount ∧
      s1.skipCount = s2.skipCount ∧ s1.errCount = s2.errCount ∧
      s1.fetchLog = s2.fetchLog ∧ s1.oracleIdx = s2.oracleIdx ∧ s1.upIdx = s2.upIdx := by
  cases s1; cases s2
  simp only [erase, St.mk.injEq] at h
  simpa using h

theorem erase_tryUpload (u : Nat → Bool) (s : St) :
    erase (tryUpload u s) = { erase s with upIdx := (erase s).upIdx + 1 } := by
  unfold tryUpload erase; split <;> rfl

theorem erase_append_manifest (u : Nat → Bool) (r : Rec) (s : St) :
    erase (append_manifest u r s) =
      { erase s with manifest := (erase s).manifest ++ [r],
                     upIdx := (erase s).upIdx + 1 } := by
  unfold append_manifest tryUpload erase; split <;> rfl

theorem erase_persistPayload (u : Nat → Bool) (fid : Nat) (s : St) :
    erase (persistPayload u fid s) =
      { erase s with payloads := (erase s).payloads ++ [fid],
                     upIdx := (erase s).upIdx + 1 } := by
  unfold persistPayload tryUpload erase; split <;> rfl

theorem erase_bumpOk (s : St) :
    erase { s with okCount := s.okCount + 1 } =
      { erase s with okCount := (erase s).okCount + 1 } := rfl

theorem erase_bumpErr (s : St) :
    erase { s with errCount := s.errCount + 1 } =
      { erase s with errCount := (erase s).errCount + 1 } := rfl

theorem erase_bumpSkip (s : St) :
    erase { s with skipCount := s.skipCount + 1 } =
      { erase s with skipCount := (erase s).skipCount + 1 } := rfl

theorem retryGo_erase (cfg : Config) (oracle : Nat → Response) (fid : Nat) :
    ∀ (fuel a : Nat) (u1 u2 : Nat → Bool) (s1 s2 : St), erase s1 = erase s2 →
    erase (retryGo cfg oracle u1 fid fuel a s1).1 =
      erase (retryGo cfg oracle u2 fid fuel a s2).1 ∧
    (retryGo cfg oracle u1 fid fuel a s1).2 = (retryGo cfg oracle u2 fid fuel a s2).2 := by
  intro fuel
  induction fuel with
  | zero => intro a u1 u2 s1 s2 h; rw [retryGo_zero, retryGo_zero]; exact ⟨h, rfl⟩
  | succ fuel ih =>
      intro a u1 u2 s1 s2 h
      obtain ⟨ht, hl, hm, hp, hok, hsk, herr, hfl, hoi, hup⟩ := erase_proj s1 s2 h
      by_cases hlt : a < cfg.maxAttempts
      · have hts : sleep_for_rate_limit cfg s1.time s1.lastReqTs =
            sleep_for_rate_limit cfg s2.time s2.lastReqTs := by rw [ht, hl]
        have hor : oracle s1.oracleIdx = oracle s2.oracleIdx := by rw [hoi]
        cases hc : classify (oracle s1.oracleIdx) (a + 1) with
        | success j =>
            have hc2 : classify (oracle s2.oracleIdx) (a + 1) = .success j := by
              rw [← hor]; exact hc
            rw [retryGo_succ cfg oracle u1 fid fuel a s1 j hlt hc,
              retryGo_succ cfg oracle u2 fid fuel a s2 j hlt hc2]
            refine ⟨?_, rfl⟩
            show erase _ = erase _
            rw [erase_bumpOk, erase_bumpOk, erase_append_manifest, erase_append_manifest,
              erase_persistPayload, erase_persistPayload]
            have hmid : erase
                { s1 with time := sleep_for_rate_limit cfg s1.time s1.lastReqTs,
                          lastReqTs := some (sleep_for_rate_limit cfg s1.time s1.lastReqTs),
                          fetchLog := s1.fetchLog ++
                            [(fid, sleep_for_rate_limit cfg s1.time s1.lastReqTs)],
                          oracleIdx := s1.oracleIdx + 1 } = erase
                { s2 with time := sleep_for_rate_limit cfg s2.time s2.lastReqTs,
                          lastReqTs := some (sleep_for_rate_limit cfg s2.time s2.lastReqTs),
                          fetchLog := s2.fetchLog ++
                            [(fid, sleep_for_rate_limit cfg s2.time s2.lastReqTs)],
                          oracleIdx := s2.oracleIdx + 1 } := by
              simp only [erase, St.mk.injEq]
              refine ⟨by rw [hts], by rw [hts], hm, hp, hok, hsk, herr, by rw [hfl, hts],
                by rw [hoi], hup, trivial⟩
            rw [hmid]
        | rateLimited w =>
            have hc2 : classify (oracle s2.oracleIdx) (a + 1) = .rateLimited w := by
              rw [← hor]; exact hc
            rw [retryGo_429 cfg oracle u1 fid fuel a s1 w hlt hc,
              retryGo_429 cfg oracle u2 fid fuel a s2 w hlt hc2]
            apply ih
            simp only [erase, St.mk.injEq]
            refine ⟨by rw [hts], by rw [hts], hm, hp, hok, hsk, herr, by rw [hfl, hts],
              by rw [hoi], hup, trivial⟩
        | failed code msg =>
            have hc2 : classify (oracle s2.oracleIdx) (a + 1) = .failed code msg := by
              rw [← hor]; exact hc
            rw [retryGo_fail cfg oracle u1 fid fuel a s1 code msg hlt hc,
              retryGo_fail cfg oracle u2 fid fuel a s2 code msg hlt hc2]
            apply ih
            rw [erase_append_manifest, erase_append_manifest]
            have hmid : erase
                { s1 with time := sleep_for_rate_limit cfg s1.time s1.lastReqTs,
                          lastReqTs := some (sleep_for_rate_limit cfg s1.time s1.lastReqTs),
                          fetchLog := s1.fetchLog ++
                            [(fid, sleep_for_rate_limit cfg s1.time s1.lastReqTs)],
                          oracleIdx := s1.oracleIdx + 1 } = erase
                { s2 with time := sleep_for_rate_limit cfg s2.time s2.lastReqTs,
                          lastReqTs := some (sleep_for_rate_limit cfg s2.time s2.lastReqTs),
                          fetchLog := s2.fetchLog ++
                            [(fid, sleep_for_rate_limit cfg s2.time s2.lastReqTs)],
                          oracleIdx := s2.oracleIdx + 1 } := by
              simp only [erase, St.mk.injEq]
              refine ⟨by rw [hts], by rw [hts], hm, hp, hok, hsk, herr, by rw [hfl, hts],
                by rw [hoi], hup, trivial⟩
            rw [hmid]
      · rw [retryGo_stuck cfg oracle u1 fid a (Nat.le_of_not_lt hlt),
          retryGo_stuck cfg oracle u2 fid a (Nat.le_of_not_lt hlt)]
        exact ⟨h, rfl⟩

theorem processItem_skip (cfg : Config) (oracle : Nat → Response) (u : Nat → Bool)
    (doneMap : Nat → Option Rec) (st : St) (fid : Nat)
    (h : statusIsOk (doneMap fid) = true ∨ fid ∈ st.payloads) :
    processItem cfg oracle u doneMap st fid = { st with skipCount := st.skipCount + 1 } := by
  simp only [processItem]
  rw [if_pos h]

theorem processItem_noSkip (cfg : Config) (oracle : Nat → Response) (u : Nat → Bool)
    (doneMap : Nat → Option Rec) (st : St) (fid : Nat)
    (h : ¬(statusIsOk (doneMap fid) = true ∨ fid ∈ st.payloads)) :
    processItem cfg oracle u doneMap st fid =
      (if cfg.maxAttempts ≤
            (retryGo cfg oracle u fid cfg.maxAttempts (prevAttempts (doneMap fid)) st).2 ∧
          fid ∉ (retryGo cfg oracle u fid cfg.maxAttempts (prevAttempts (doneMap fid)) st).1.payloads
        then { (retryGo cfg oracle u fid cfg.maxAttempts (prevAttempts (doneMap fid)) st).1 with
                errCount :=
                  (retryGo cfg oracle u fid cfg.maxAttempts (prevAttempts (doneMap fid)) st).1.errCount + 1 }
        else (retryGo cfg oracle u fid cfg.maxAttempts (prevAttempts (doneMap fid)) st).1) := by
  simp only [processItem]
  rw [if_neg h]

theorem processItem_erase (cfg : Config) (oracle : Nat → Response)
    (doneMap : Nat → Option Rec) (fid : Nat) (u1 u2 : Nat → Bool) (s1 s2 : St)
    (h : erase s1 = erase s2) :
    erase (processItem cfg oracle u1 doneMap s1 fid) =
      erase (processItem cfg oracle u2 doneMap s2 fid) := by
  obtain ⟨ht, hl, hm, hp, hok, hsk, herr, hfl, hoi, hup⟩ := erase_proj s1 s2 h
  by_cases hskip : statusIsOk (doneMap fid) = true ∨ fid ∈ s1.payloads
  · rw [processItem_skip cfg oracle u1 doneMap s1 fid hskip,
      processItem_skip cfg oracle u2 doneMap s2 fid (by rw [← hp]; exact hskip)]
    rw [erase_bumpSkip, erase_bumpSkip, h]
  · rw [processItem_noSkip cfg oracle u1 doneMap s1 fid hskip,
      processItem_noSkip cfg oracle u2 doneMap s2 fid (by rw [← hp]; exact hskip)]
    obtain ⟨he, ha⟩ := retryGo_erase cfg oracle fid cfg.maxAttempts
      (prevAttempts (doneMap fid)) u1 u2 s1 s2 h
    obtain ⟨_, _, _, hp2, _, _, _, _, _, _⟩ := erase_proj _ _ he
    by_cases hgu : cfg.maxAttempts ≤
        (retryGo cfg oracle u1 fid cfg.maxAttempts (prevAttempts (doneMap fid)) s1).2 ∧
        fid ∉ (retryGo cfg oracle u1 fid cfg.maxAttempts (prevAttempts (doneMap fid)) s1).1.payloads
    · rw [if_pos hgu, if_pos (by rw [← ha, ← hp2]; exact hgu)]
      rw [erase_bumpErr, erase_bumpErr, he]
    · rw [if_neg hgu, if_neg (by rw [← ha, ← hp2]; exact hgu)]
      exact he

theorem foldl_processItem_erase (cfg : Config) (oracle : Nat → Response)
    (doneMap : Nat → Option Rec) (u1 u2 : Nat → Bool) :
    ∀ (fxs : List Nat) (s1 s2 : St), erase s1 = erase s2 →
    erase (fxs.foldl (processItem cfg oracle u1 doneMap) s1) =
      erase (fxs.foldl (processItem cfg oracle u2 doneMap) s2) := by
  intro fxs
  induction fxs with
  | nil => intro s1 s2 h; exact h
  | cons f rest ih =>
      intro s1 s2 h
      exact ih _ _ (processItem_erase cfg oracle doneMap f u1 u2 s1 s2 h)

theorem scrub_done (st : St) : scrub (.done st) = .done (erase st) := rfl

theorem runPipeline_scrub (cfg : Config) (oracle : Nat → Response) (u1 u2 : Nat → Bool)
    (cached : Option (List Nat)) (resp : FixturesResponse) (doneLines : List LineVal)
    (st0 : St) :
    scrub (runPipeline cfg oracle u1 cached resp doneLines st0) =
      scrub (runPipeline cfg oracle u2 cached resp doneLines st0) := by
  cases cached with
  | some fxs =>
      simp only [runPipeline, getFixtures]
      by_cases he : fxs.isEmpty
      · rw [if_pos he, if_pos he]
      · rw [if_neg he, if_neg he, scrub_done, scrub_done]
        exact congrArg RunResult.done
          (foldl_processItem_erase cfg oracle _ u1 u2 fxs st0 st0 rfl)
  | none =>
      simp only [runPipeline, getFixtures]
      cases hsb : resp.status == 200 with
      | false => rfl
      | true =>
          cases hb : resp.body with
          | none => rfl
          | some fxs =>
              simp only
              by_cases he : fxs.isEmpty
              · rw [if_pos he, if_pos he]
              · rw [if_neg he, if_neg he, scrub_done, scrub_done]
                refine congrArg RunResult.done
                  (foldl_processItem_erase cfg oracle _ u1 u2 fxs _ _ ?_)
                rw [erase_tryUpload, erase_tryUpload]

/-! Machinery for claim C2: the fold of the manifest keeps exactly the last
readable record per fixture id. -/

/-- The record a line contributes for a given fixture id, if any. -/
def goodFor (k : Nat) : LineVal → Option Rec
  | .good r => if r.fixture_id = k then some r else none
  | .bad => none

theorem getLast?_cons_or {α : Type} (a : α) (t : List α) :
    (a :: t).getLast? = t.getLast?.or (some a) := by
  induction t generalizing a with
  | nil => rfl
  | cons b t ih =>
      rw [List.getLast?_cons_cons, ih b]
      cases hgl : t.getLast? <;> rfl

theorem load_aux : ∀ (lines : List LineVal) (m : Nat → Option Rec) (k : Nat),
    (lines.foldl lineStep m) k = ((lines.filterMap (goodFor k)).getLast?).or (m k) := by
  intro lines
  induction lines with
  | nil => intro m k; rfl
  | cons l rest ih =>
      intro m k
      rw [List.foldl_cons, ih (lineStep m l) k]
      cases hg : goodFor k l with
      | none =>
          have hstep : lineStep m l k = m k := by
            cases l with
            | good r =>
                simp only [goodFor] at hg
                by_cases hk : r.fixture_id = k
                · rw [if_pos hk] at hg; exact absurd hg (by simp)
                · simp only [lineStep]
                  rw [if_neg (fun hkk => hk hkk.symm)]
            | bad => rfl
          rw [hstep]
          simp only [List.filterMap_cons, hg]
      | some r =>
          cases l with
          | bad => simp [goodFor] at hg
          | good r0 =>
              have hk : r0.fixture_id = k := by
                simp only [goodFor] at hg
                by_cases hk0 : r0.fixture_id = k
                · exact hk0
                · rw [if_neg hk0] at hg; exact absurd hg (by simp)
              have hr : r0 = r := by
                simp only [goodFor] at hg
                rw [if_pos hk] at hg
                simpa using hg
              have hstep : lineStep m (.good r0) k = some r0 := by
                simp only [lineStep]
                rw [if_pos hk.symm]
              rw [hstep]
              simp only [List.filterMap_cons, hg]
              rw [getLast?_cons_or, ← hr]
              cases hx : (rest.filterMap (goodFor k)).getLast? <;> rfl

/-! Machinery for claim C1: a run over a work list in which every item is
already completed only counts skips. -/

theorem foldl_skip (cfg : Config) (oracle : Nat → Response) (u : Nat → Bool)
    (doneMap : Nat → Option Rec) :
    ∀ (fxs : List Nat) (st : St),
    (∀ fid ∈ fxs, statusIsOk (doneMap fid) = true ∨ fid ∈ st.payloads) →
    fxs.foldl (processItem cfg oracle u doneMap) st =
      { st with skipCount := st.skipCount + fxs.length } := by
  intro fxs
  induction fxs with
  | nil => intro st _; rfl
  | cons f rest ih =>
      intro st hall
      have hrest : ∀ fid ∈ rest, statusIsOk (doneMap fid) = true ∨
          fid ∈ ({ st with skipCount := st.skipCount + 1 } : St).payloads :=
        fun fid hf => hall fid (List.mem_cons_of_mem f hf)
      rw [List.foldl_cons,
        processItem_skip cfg oracle u doneMap st f (hall f (List.mem_cons_self f rest)),
        ih _ hrest]
      congr 1
      simp
      omega

theorem fetchesFor_append (fid : Nat) (base tail : List (Nat × ℚ))
    (h : ∀ e ∈ tail, e.1 = fid) :
    (List.filter (fun e => e.1 == fid) (base ++ tail)).length =
      (List.filter (fun e => e.1 == fid) base).length + tail.length := by
  have htail : List.filter (fun e => e.1 == fid) tail = tail :=
    List.filter_eq_self.mpr (fun e he => by simpa using h e he)
  rw [List.filter_append, htail, List.length_append]

theorem spacedLog_tryUpload (cfg : Config) (u : Nat → Bool) (st : St)
    (h : spacedLog cfg st) : spacedLog cfg (tryUpload u st) := by
  obtain ⟨h1, h2⟩ := h
  refine ⟨?_, ?_⟩
  · rw [tryUpload_lastReqTs, tryUpload_fetchLog]; exact h1
  · rw [tryUpload_fetchLog]; exact h2

theorem processItem_spaced (cfg : Config) (oracle : Nat → Response) (u : Nat → Bool)
    (doneMap : Nat → Option Rec) (st : St) (fid : Nat) (h : spacedLog cfg st) :
    spacedLog cfg (processItem cfg oracle u doneMap st fid) := by
  by_cases hskip : statusIsOk (doneMap fid) = true ∨ fid ∈ st.payloads
  · rw [processItem_skip cfg oracle u doneMap st fid hskip]
    exact h
  · rw [processItem_noSkip cfg oracle u doneMap st fid hskip]
    have hsp := retryGo_spaced cfg oracle u fid cfg.maxAttempts
      (prevAttempts (doneMap fid)) st h
    split
    · exact hsp
    · exact hsp

theorem initSt_spaced (cfg : Config) : spacedLog cfg initSt :=
  ⟨rfl, List.chain'_nil⟩

theorem runPipeline_spaced (cfg : Config) (oracle : Nat → Response) (u : Nat → Bool)
    (cached : Option (List Nat)) (resp : FixturesResponse) (doneLines : List LineVal)
    (st : St) (hrun : runPipeline cfg oracle u cached resp doneLines initSt = .done st) :
    spacedLog cfg st := by
  have hfold : ∀ (fxs : List Nat) (s : St), spacedLog cfg s →
      spacedLog cfg (fxs.foldl (processItem cfg oracle u (load_done_map doneLines)) s) := by
    intro fxs
    induction fxs with
    | nil => intro s hs; exact hs
    | cons f rest ih =>
        intro s hs
        exact ih _ (processItem_spaced cfg oracle u _ s f hs)
  unfold runPipeline at hrun
  cases hgf : getFixtures u cached resp initSt with
  | none =>
      rw [hgf] at hrun
      exact absurd (hrun : RunResult.fatal = RunResult.done st) (by simp)
  | some pr =>
      obtain ⟨fxs, st1⟩ := pr
      rw [hgf] at hrun
      have hrun2 : (if fxs.isEmpty then RunResult.emptyExit
          else RunResult.done
            (fxs.foldl (processItem cfg oracle u (load_done_map doneLines)) st1)) =
          RunResult.done st := hrun
      by_cases he : fxs.isEmpty = true
      · rw [if_pos he] at hrun2; simp at hrun2
      · rw [if_neg he] at hrun2
        have hst1 : spacedLog cfg st1 := by
          cases cached with
          | some f0 =>
              simp only [getFixtures] at hgf
              obtain ⟨rfl, rfl⟩ : f0 = fxs ∧ initSt = st1 := by
                constructor <;> [exact congrArg Prod.fst (Option.some.inj hgf);
                  exact congrArg Prod.snd (Option.some.inj hgf)]
              exact initSt_spaced cfg
          | none =>
              simp only [getFixtures] at hgf
              cases hsb : resp.status == 200 with
              | false => rw [hsb] at hgf; simp at hgf
              | true =>
                  rw [hsb] at hgf
                  cases hb : resp.body with
                  | none => rw [hb] at hgf; simp at hgf
                  | some f0 =>
                      rw [hb] at hgf
                      simp only [Option.some.injEq, Prod.mk.injEq] at hgf
                      rw [← hgf.2]
                      exact spacedLog_tryUpload cfg u initSt (initSt_spaced cfg)
        have hst : fxs.foldl (processItem cfg oracle u (load_done_map doneLines)) st1 = st :=
          RunResult.done.inj hrun2
        rw [← hst]
        exact hfold fxs st1 hst1

theorem processItem_budget (cfg : Config) (oracle : Nat → Response) (u : Nat → Bool)
    (doneMap : Nat → Option Rec) (st : St) (fid : Nat)
    (h : ¬(statusIsOk (doneMap fid) = true ∨ fid ∈ st.payloads)) :
    fetchesFor fid (processItem cfg oracle u doneMap st fid) ≤
        fetchesFor fid st + (cfg.maxAttempts - prevAttempts (doneMap fid)) ∧
      (fid ∉ (processItem cfg oracle u doneMap st fid).payloads →
        (processItem cfg oracle u doneMap st fid).errCount = st.errCount + 1 ∧
        fetchesFor fid (processItem cfg oracle u doneMap st fid) =
          fetchesFor fid st + (cfg.maxAttempts - prevAttempts (doneMap fid))) := by
  have hfid : fid ∉ st.payloads := fun hmem => h (Or.inr hmem)
  obtain ⟨tail, hsh, hallt, hlent⟩ := retryGo_log_shape cfg oracle u fid
    cfg.maxAttempts (prevAttempts (doneMap fid)) st
  have hcounts := retryGo_counts cfg oracle u fid cfg.maxAttempts
    (prevAttempts (doneMap fid)) st
  rw [processItem_noSkip cfg oracle u doneMap st fid h]
  split
  · next hgu =>
      constructor
      · show (List.filter _ _).length ≤ _
        rw [hsh, fetchesFor_append fid st.fetchLog tail hallt]
        have : (List.filter (fun e => e.1 == fid) st.fetchLog).length = fetchesFor fid st := rfl
        omega
      · intro hno
        have hno2 : fid ∉ (retryGo cfg oracle u fid cfg.maxAttempts
            (prevAttempts (doneMap fid)) st).1.payloads := by simpa using hno
        obtain ⟨hpl, hat, hlen, hok⟩ := retryGo_noSucc cfg oracle u fid cfg.maxAttempts
          (prevAttempts (doneMap fid)) st hfid hno2 (by omega)
        have htl : tail.length = cfg.maxAttempts - prevAttempts (doneMap fid) := by
          rw [hsh] at hlen
          simp at hlen
          omega
        constructor
        · show _ + 1 = st.errCount + 1
          rw [hcounts.1]
        · show (List.filter _ _).length = _
          rw [hsh, fetchesFor_append fid st.fetchLog tail hallt, htl]
          rfl
  · next hgu =>
      constructor
      · show (List.filter _ _).length ≤ _
        rw [hsh, fetchesFor_append fid st.fetchLog tail hallt]
        have : (List.filter (fun e => e.1 == fid) st.fetchLog).length = fetchesFor fid st := rfl
        omega
      · intro hno
        have hno2 : fid ∉ (retryGo cfg oracle u fid cfg.maxAttempts
            (prevAttempts (doneMap fid)) st).1.payloads := hno
        obtain ⟨hpl, hat, hlen, hok⟩ := retryGo_noSucc cfg oracle u fid cfg.maxAttempts
          (prevAttempts (doneMap fid)) st hfid hno2 (by omega)
        exact absurd ⟨by rw [hat]; omega, hno2⟩ hgu

theorem runPipeline_fatal_iff (cfg : Config) (oracle : Nat → Response) (u : Nat → Bool)
    (cached : Option (List Nat)) (resp : FixturesResponse) (doneLines : List LineVal)
    (st0 : St) :
    runPipeline cfg oracle u cached resp doneLines st0 = .fatal ↔
      cached = none ∧ (resp.status ≠ 200 ∨ resp.body = none) := by
  cases cached with
  | some fxs =>
      simp only [runPipeline, getFixtures]
      constructor
      · intro h
        by_cases he : fxs.isEmpty = true
        · rw [if_pos he] at h; exact absurd h (by simp)
        · rw [if_neg he] at h; exact absurd h (by simp)
      · intro h; exact absurd h.1 (by simp)
  | none =>
      simp only [runPipeline, getFixtures]
      cases hsb : resp.status == 200 with
      | false =>
          constructor
          · intro _
            exact ⟨trivial, Or.inl (by simpa using hsb)⟩
          · intro _
            rfl
      | true =>
          cases hb : resp.body with
          | none =>
              constructor
              · intro _
                exact ⟨trivial, Or.inr rfl⟩
              · intro _
                rfl
          | some fxs =>
              constructor
              · intro h
                have h2 : (if fxs.isEmpty then RunResult.emptyExit
                    else RunResult.done
                      ((fxs.foldl (processItem cfg oracle u (load_done_map doneLines))
                        (tryUpload u st0)))) = RunResult.fatal := h
                by_cases he : fxs.isEmpty = true
                · rw [if_pos he] at h2; exact absurd h2 (by simp)
                · rw [if_neg he] at h2; exact absurd h2 (by simp)
              · rintro ⟨-, hor | hor⟩
                · exact absurd (by simpa using hsb) hor
                · exact absurd hor (by simp)

theorem processItem_exhausted (cfg : Config) (oracle : Nat → Response) (u : Nat → Bool)
    (doneMap : Nat → Option Rec) (st : St) (fid : Nat) (r : Rec) (a0 : Nat)
    (hdm : doneMap fid = some r) (hst : r.status = some "error")
    (hat : r.attempts = some a0) (hM : cfg.maxAttempts ≤ a0)
    (hp : fid ∉ st.payloads) :
    processItem cfg oracle u doneMap st fid = { st with errCount := st.errCount + 1 } := by
  have hskip : ¬(statusIsOk (doneMap fid) = true ∨ fid ∈ st.payloads) := by
    rintro (hok | hmem)
    · rw [hdm] at hok
      simp [statusIsOk, hst] at hok
    · exact hp hmem
  rw [processItem_noSkip cfg oracle u doneMap st fid hskip]
  have ha0 : prevAttempts (doneMap fid) = a0 := by
    rw [hdm]; simp [prevAttempts, hat]
  rw [ha0, retryGo_stuck cfg oracle u fid a0 hM]
  rw [if_pos (show cfg.maxAttempts ≤ (st, a0).2 ∧ fid ∉ (st, a0).1.payloads from ⟨hM, hp⟩)]

theorem runPipeline_AB (cfg : Config) (oracle : Nat → Response) (u : Nat → Bool)
    (resp : FixturesResponse) (a b : Nat) (hM : 0 < cfg.maxAttempts) (hab : a ≠ b)
    (hfail : ∀ i, i < cfg.maxAttempts → failsAlways (oracle i))
    (hsucc : succResp (oracle cfg.maxAttempts)) :
    ∃ st, runPipeline cfg oracle u (some [a, b]) resp [] initSt = .done st ∧
      st.payloads = [b] ∧ st.okCount = 1 ∧ st.errCount = 1 ∧ st.skipCount = 0 ∧
      (∀ r ∈ st.manifest, r.fixture_id = a → r.status = some "error") ∧
      (∃ r, r ∈ st.manifest ∧ r.fixture_id = b ∧ r.status = some "ok") := by
  have hrun : runPipeline cfg oracle u (some [a, b]) resp [] initSt =
      .done ([a, b].foldl (processItem cfg oracle u (load_done_map [])) initSt) := rfl
  have ha0 : prevAttempts (load_done_map ([] : List LineVal) a) = 0 := rfl
  have hb0 : prevAttempts (load_done_map ([] : List LineVal) b) = 0 := rfl
  -- item a: all attempts fail
  obtain ⟨hApl, hAok, hAoi, tailA, hAman, hAerr⟩ :=
    retryGo_allFail cfg oracle u a cfg.maxAttempts
      (prevAttempts (load_done_map ([] : List LineVal) a)) initSt
      (fun i h1 h2 => hfail i (by rw [ha0] at h2; simpa [initSt] using h2))
      (by rw [ha0]; omega)
  obtain ⟨hAerrc, hAskipc⟩ := retryGo_counts cfg oracle u a cfg.maxAttempts
    (prevAttempts (load_done_map ([] : List LineVal) a)) initSt
  obtain ⟨-, hAat, -, -⟩ :=
    retryGo_noSucc cfg oracle u a cfg.maxAttempts
      (prevAttempts (load_done_map ([] : List LineVal) a)) initSt
      (by simp [initSt]) (by rw [hApl]; simp [initSt]) (by rw [ha0]; omega)
  have hskipA : ¬(statusIsOk (load_done_map ([] : List LineVal) a) = true ∨
      a ∈ initSt.payloads) := by
    rintro (hok | hmem)
    · simp [statusIsOk, load_done_map] at hok
    · simp [initSt] at hmem
  have hstepA : processItem cfg oracle u (load_done_map []) initSt a =
      { (retryGo cfg oracle u a cfg.maxAttempts
          (prevAttempts (load_done_map ([] : List LineVal) a)) initSt).1 with
        errCount := (retryGo cfg oracle u a cfg.maxAttempts
          (prevAttempts (load_done_map ([] : List LineVal) a)) initSt).1.errCount + 1 } := by
    rw [processItem_noSkip cfg oracle u (load_done_map []) initSt a hskipA]
    rw [if_pos ⟨by rw [hAat, ha0]; omega, by rw [hApl]; simp [initSt]⟩]
  -- item b: first attempt succeeds
  have hoiA : ({ (retryGo cfg oracle u a cfg.maxAttempts
      (prevAttempts (load_done_map ([] : List LineVal) a)) initSt).1 with
        errCount := (retryGo cfg oracle u a cfg.maxAttempts
          (prevAttempts (load_done_map ([] : List LineVal) a)) initSt).1.errCount + 1 } :
        St).oracleIdx = cfg.maxAttempts := by
    show (retryGo cfg oracle u a cfg.maxAttempts
      (prevAttempts (load_done_map ([] : List LineVal) a)) initSt).1.oracleIdx = _
    rw [hAoi, ha0]
    show 0 + (cfg.maxAttempts - 0) = cfg.maxAttempts
    omega
  have hsB : succResp (oracle ({ (retryGo cfg oracle u a cfg.maxAttempts
      (prevAttempts (load_done_map ([] : List LineVal) a)) initSt).1 with
        errCount := (retryGo cfg oracle u a cfg.maxAttempts
          (prevAttempts (load_done_map ([] : List LineVal) a)) initSt).1.errCount + 1 } :
        St).oracleIdx) := by
    rw [hoiA]; exact hsucc
  obtain ⟨hBpl, hBok, hBerr, hBskip, hBman, hBoi, hBat⟩ :=
    retryGo_succ_start cfg oracle u b cfg.maxAttempts
      (prevAttempts (load_done_map ([] : List LineVal) b))
      ({ (retryGo cfg oracle u a cfg.maxAttempts
          (prevAttempts (load_done_map ([] : List LineVal) a)) initSt).1 with
        errCount := (retryGo cfg oracle u a cfg.maxAttempts
          (prevAttempts (load_done_map ([] : List LineVal) a)) initSt).1.errCount + 1 })
      hM (by rw [hb0]; omega) hsB
  have hskipB : ¬(statusIsOk (load_done_map ([] : List LineVal) b) = true ∨
      b ∈ ({ (retryGo cfg oracle u a cfg.maxAttempts
          (prevAttempts (load_done_map ([] : List LineVal) a)) initSt).1 with
        errCount := (retryGo cfg oracle u a cfg.maxAttempts
          (prevAttempts (load_done_map ([] : List LineVal) a)) initSt).1.errCount + 1 } :
        St).payloads) := by
    rintro (hok | hmem)
    · simp [statusIsOk, load_done_map] at hok
    · have hmem2 : b ∈ (retryGo cfg oracle u a cfg.maxAttempts
          (prevAttempts (load_done_map ([] : List LineVal) a)) initSt).1.payloads := hmem
      rw [hApl] at hmem2
      simp [initSt] at hmem2
  have hstepB : processItem cfg oracle u (load_done_map [])
      ({ (retryGo cfg oracle u a cfg.maxAttempts
          (prevAttempts (load_done_map ([] : List LineVal) a)) initSt).1 with
        errCount := (retryGo cfg oracle u a cfg.maxAttempts
          (prevAttempts (load_done_map ([] : List LineVal) a)) initSt).1.errCount + 1 }) b =
      (retryGo cfg oracle u b cfg.maxAttempts
        (prevAttempts (load_done_map ([] : List LineVal) b))
        ({ (retryGo cfg oracle u a cfg.maxAttempts
            (prevAttempts (load_done_map ([] : List LineVal) a)) initSt).1 with
          errCount := (retryGo cfg oracle u a cfg.maxAttempts
            (prevAttempts (load_done_map ([] : List LineVal) a)) initSt).1.errCount + 1 })).1 := by
    rw [processItem_noSkip cfg oracle u (load_done_map []) _ b hskipB]
    rw [if_neg ?_]
    rintro ⟨-, hnp⟩
    apply hnp
    show b ∈ (retryGo cfg oracle u b cfg.maxAttempts
        (prevAttempts (load_done_map ([] : List LineVal) b))
        ({ (retryGo cfg oracle u a cfg.maxAttempts
            (prevAttempts (load_done_map ([] : List LineVal) a)) initSt).1 with
          errCount := (retryGo cfg oracle u a cfg.maxAttempts
            (prevAttempts (load_done_map ([] : List LineVal) a)) initSt).1.errCount + 1 })).1.payloads
    rw [hBpl]
    exact List.mem_append_right _ (List.mem_singleton.mpr rfl)
  have hfold : [a, b].foldl (processItem cfg oracle u (load_done_map [])) initSt =
      processItem cfg oracle u (load_done_map [])
        (processItem cfg oracle u (load_done_map []) initSt a) b := rfl
  rw [hfold, hstepA, hstepB] at hrun
  have hmanA : ({ (retryGo cfg oracle u a cfg.maxAttempts
      (prevAttempts (load_done_map ([] : List LineVal) a)) initSt).1 with
        errCount := (retryGo cfg oracle u a cfg.maxAttempts
          (prevAttempts (load_done_map ([] : List LineVal) a)) initSt).1.errCount + 1 } :
        St).manifest = tailA := by
    show (retryGo cfg oracle u a cfg.maxAttempts
      (prevAttempts (load_done_map ([] : List LineVal) a)) initSt).1.manifest = tailA
    rw [hAman]
    show ([] : List Rec) ++ tailA = tailA
    simp
  refine ⟨_, hrun, ?_, ?_, ?_, ?_, ?_, ?_⟩
  · refine Eq.trans (hBpl.symm.trans ?_).symm ?_
    · rfl
    · refine Eq.trans ?_ (by rfl :
        ([] : List Nat) ++ [b] = [b])
      show ({ (retryGo cfg oracle u a cfg.maxAttempts
          (prevAttempts (load_done_map ([] : List LineVal) a)) initSt).1 with
          errCount := (retryGo cfg oracle u a cfg.maxAttempts
            (prevAttempts (load_done_map ([] : List LineVal) a)) initSt).1.errCount + 1 } :
          St).payloads ++ [b] = [] ++ [b]
      show (retryGo cfg oracle u a cfg.maxAttempts
        (prevAttempts (load_done_map ([] : List LineVal) a)) initSt).1.payloads ++ [b] =
          [] ++ [b]
      rw [hApl]
      rfl
  · refine Eq.trans hBok ?_
    show (retryGo cfg oracle u a cfg.maxAttempts
      (prevAttempts (load_done_map ([] : List LineVal) a)) initSt).1.okCount + 1 = 1
    rw [hAok]
    rfl
  · refine Eq.trans hBerr ?_
    show (retryGo cfg oracle u a cfg.maxAttempts
      (prevAttempts (load_done_map ([] : List LineVal) a)) initSt).1.errCount + 1 = 1
    rw [hAerrc]
    rfl
  · refine Eq.trans hBskip ?_
    show (retryGo cfg oracle u a cfg.maxAttempts
      (prevAttempts (load_done_map ([] : List LineVal) a)) initSt).1.skipCount = 0
    rw [hAskipc]
    rfl
  · intro r hr hfa
    have hr2 : r ∈ (retryGo cfg oracle u b cfg.maxAttempts
        (prevAttempts (load_done_map ([] : List LineVal) b))
        ({ (retryGo cfg oracle u a cfg.maxAttempts
            (prevAttempts (load_done_map ([] : List LineVal) a)) initSt).1 with
          errCount := (retryGo cfg oracle u a cfg.maxAttempts
            (prevAttempts (load_done_map ([] : List LineVal) a)) initSt).1.errCount + 1 })).1.manifest :=
      hr
    rw [hBman, hmanA] at hr2
    rcases List.mem_append.mp hr2 with hmem | hmem
    · exact (hAerr r hmem).2
    · rw [List.mem_singleton.mp hmem] at hfa
      exact absurd hfa.symm hab
  · refine ⟨⟨b, some "ok", some (prevAttempts (load_done_map ([] : List LineVal) b) + 1),
      some ("saved:players_" ++ toString b ++ ".json")⟩, ?_, rfl, rfl⟩
    show _ ∈ (retryGo cfg oracle u b cfg.maxAttempts
        (prevAttempts (load_done_map ([] : List LineVal) b))
        ({ (retryGo cfg oracle u a cfg.maxAttempts
            (prevAttempts (load_done_map ([] : List LineVal) a)) initSt).1 with
          errCount := (retryGo cfg oracle u a cfg.maxAttempts
            (prevAttempts (load_done_map ([] : List LineVal) a)) initSt).1.errCount + 1 })).1.manifest
    rw [hBman, hmanA]
    exact List.mem_append_right _ (List.mem_singleton.mpr rfl)

end FetchRawRound

open FetchRawRound Paging

/-! Concrete scenarios used by the counterexamples and witnesses below. -/

/-- The default configuration: MAX_ATTEMPTS = 3, MIN_INTERVAL_SECONDS = 6.5. -/
def cfg3 : Config := ⟨3, (13 : ℚ) / 2⟩

/-- An upload oracle on which every storage upload succeeds. -/
def upAll : Nat → Bool := fun _ => true

/-- An upload oracle on which every storage upload fails (and is swallowed). -/
def upNone : Nat → Bool := fun _ => false

/-- A fixtures response (unused when the fixtures file is cached). -/
def fixResp7 : FixturesResponse := ⟨200, some [7]⟩

/-- Responses for the first run of the C1 scenario: the first request gets an
HTTP 500, every later one a 429 without a Retry-After header. -/
def oracleFailThen429 : Nat → Response :=
  fun i => if i = 0 then ⟨500, none, none⟩ else ⟨429, none, none⟩

/-- Responses that always succeed with a JSON dict body. -/
def oracleOk : Nat → Response := fun _ => ⟨200, none, some (.dict 5)⟩

/-- Responses that always fail with an HTTP 500. -/
def oracleFail : Nat → Response := fun _ => ⟨500, none, none⟩

/-- Responses that are always 429 without a Retry-After header. -/
def oracle429 : Nat → Response := fun _ => ⟨429, none, none⟩

/-- Responses for the C7 witness: the first three requests (item A's whole
budget) fail with 500, then everything succeeds. -/
def oracleAB : Nat → Response :=
  fun i => if i < 3 then ⟨500, none, none⟩ else ⟨200, none, some (.dict 0)⟩

/-- First run of the C1 scenario: one fixture (id 7), empty manifest, no
payload files. -/
def c1run1 : RunResult :=
  runPipeline cfg3 oracleFailThen429 upAll (some [7]) fixResp7 [] initSt

/-- The state of a completed run (dummy initial state otherwise). -/
def stOf : RunResult → St := fun r => match r with | .done st => st | _ => initSt

/-- Whether a run completed normally. -/
def isDone : RunResult → Bool := fun r => match r with | .done _ => true | _ => false

/-- The manifest left on disk by the first C1 run, as the line list the
second run reads back. -/
def c1lines : List LineVal := (stOf c1run1).manifest.map .good

/-- Second run of the C1 scenario over the unchanged manifest and payload
set, with the server now healthy. -/
def c1run2 : RunResult :=
  runPipeline cfg3 oracleOk upAll (some [7]) fixResp7 c1lines initSt

/-- A 200 response whose body parses as JSON but is not a JSON object. -/
def resp200arr : Response := ⟨200, none, some (.nonDict 0)⟩

/-- A resume map for the C10 witness: fixture 7 has an error record with the
attempt budget already spent. -/
def c10map : Nat → Option Rec :=
  fun k => if k = 7 then some ⟨7, some "error", some 3, none⟩ else none

/-- C1 counterexample.  The claim asserts that a second run over the same
RunContext with an unchanged manifest and payload set leaves the Payload set
unchanged.  On the code this fails: in the first run fixture 7 fails once
with HTTP 500 (error record, attempts = 1) and then exhausts its remaining
budget on 429 responses, which append no manifest record; the run completes
with no payload for 7 and a last manifest record showing attempts = 1.  The
second run over exactly that manifest and payload set resumes at attempts = 1,
fetches again and succeeds, so the payload set changes from [] to [7]. -/
theorem c1_counterexample :
    isDone c1run1 = true ∧
    (stOf c1run1).payloads = [] ∧
    (stOf c1run1).manifest = [⟨7, some "error", some 1, some "http 500"⟩] ∧
    isDone c1run2 = true ∧
    (stOf c1run2).payloads = [7] ∧
    (stOf c1run1).payloads ≠ (stOf c1run2).payloads := by
  decide

/-- C1 (amended): for every WorkItem whose Payload file already exists at the
expected local path, or whose last manifest record has status ok, the
orchestrator marks it skipped (skip count incremented) and issues no fetch
and changes nothing else; hence a second run over the same RunContext with an
unchanged manifest and payload set issues no fetch at all and leaves the
Payload set (and manifest) unchanged whenever every work item has last
manifest status ok or an existing payload.  (Unconditionally the claim fails:
an item whose recorded attempts are below the budget, for example after
trailing 429 responses, is fetched again and may add its payload; see the
counterexample.) -/
theorem c1_corrected_resume_skip :
    (∀ (cfg : Config) (oracle : Nat → Response) (u : Nat → Bool)
        (doneMap : Nat → Option Rec) (st : St) (fid : Nat),
      statusIsOk (doneMap fid) = true ∨ fid ∈ st.payloads →
      processItem cfg oracle u doneMap st fid =
        { st with skipCount := st.skipCount + 1 }) ∧
    (∀ (cfg : Config) (oracle : Nat → Response) (u : Nat → Bool) (fxs : List Nat)
        (resp : FixturesResponse) (doneLines : List LineVal) (st0 : St),
      fxs ≠ [] →
      (∀ fid ∈ fxs, statusIsOk (load_done_map doneLines fid) = true ∨
        fid ∈ st0.payloads) →
      runPipeline cfg oracle u (some fxs) resp doneLines st0 =
        .done { st0 with skipCount := st0.skipCount + fxs.length }) := by
  constructor
  · exact processItem_skip
  · intro cfg oracle u fxs resp doneLines st0 hne hall
    simp only [runPipeline, getFixtures]
    rw [if_neg (by simp [List.isEmpty_iff]; exact hne),
      foldl_skip cfg oracle u _ fxs st0 hall]

/-- C1 witness: a run over two fixtures, one with an ok manifest record and
one with an existing payload file, only skips. -/
theorem c1_witness :
    runPipeline cfg3 oracleOk upAll (some [1, 2]) fixResp7
        [.good ⟨1, some "ok", some 1, none⟩] { initSt with payloads := [2] } =
      .done { { initSt with payloads := [2] } with
        skipCount := ({ initSt with payloads := [2] } : St).skipCount + [1, 2].length } :=
  c1_corrected_resume_skip.2 cfg3 oracleOk upAll [1, 2] fixResp7
    [.good ⟨1, some "ok", some 1, none⟩] { initSt with payloads := [2] }
    (by decide) (by decide)

/-- C2: the manifest fold returns, for each fixture id, exactly the last
readable record for that id in log order (later lines shadow earlier ones),
lines that fail to parse contribute nothing, and an absent log yields the
empty mapping. -/
theorem c2_manifest_fold_correctness : ∀ (lines : List LineVal) (k : Nat),
    load_done_map lines k = (lines.filterMap (goodFor k)).getLast? ∧
      load_done_map [] k = none := by
  intro lines k
  refine ⟨?_, rfl⟩
  have h := load_aux lines (fun _ => none) k
  simpa [load_done_map] using h

/-- C4 counterexample.  The claim says the wait equals the integer value of
the Retry-After header whenever the header is present.  The header value
"5 " (digit plus trailing blank) has integer value 5 under Python int(), but
str.isdigit is false on it, so the code falls back to the exponential
backoff: at attempt 1 it waits min(60, 2^1*2) = 4 seconds, not 5. -/
theorem c4_counterexample :
    pyInt "5 " = some 5 ∧ pyIsDigit "5 " = false ∧
    computeWait (some "5 ") 1 = 4 ∧ min 60 (2 ^ 1 * 2) = 4 ∧ (4 : Nat) ≠ 5 := by
  decide

/-- C4 (amended): on a 429 the wait equals the decimal value of the
Retry-After header exactly when the header is present, nonempty and consists
solely of digits; otherwise (header absent, or present but not a plain digit
string) the wait equals min(60, 2^attempt * 2) for the 1-based attempt
number. -/
theorem c4_amended_backoff : ∀ (s : String) (a : Nat),
    (pyIsDigit s = true → computeWait (some s) a = digitsVal s) ∧
    (pyIsDigit s = false → computeWait (some s) a = min 60 (2 ^ a * 2)) ∧
    computeWait none a = min 60 (2 ^ a * 2) := by
  intro s a
  refine ⟨?_, ?_, rfl⟩
  · intro h; simp [computeWait, h]
  · intro h; simp [computeWait, h]

/-- C4 witness: a digit header is used verbatim, a non-digit header falls
back to the capped exponential backoff. -/
theorem c4_witness :
    computeWait (some "7") 2 = digitsVal "7" ∧
    computeWait (some "later") 3 = min 60 (2 ^ 3 * 2) :=
  ⟨(c4_amended_backoff "7" 2).1 (by decide),
   (c4_amended_backoff "later" 3).2.1 (by decide)⟩

/-- C5 counterexample.  The claim says the outcome is Success exactly when
the status is 200 and the body parses as JSON.  A 200 response whose body is
a JSON array parses as JSON, yet the code requires isinstance(j, dict) and
classifies it as Failed; the classifier modelled from the claim wording
returns Success there. -/
theorem c5_counterexample :
    resp200arr.status = 200 ∧ resp200arr.body ≠ none ∧
    classify resp200arr 1 = .failed 200 "http 200" ∧
    specClassify resp200arr 1 = .success (.nonDict 0) ∧
    classify resp200arr 1 ≠ specClassify resp200arr 1 := by
  decide

/-- C5 (amended): the outcome is Success exactly when the HTTP status is 200
and the body parses as a JSON object (dict), and it then carries that parsed
body; a 429 status is always RateLimited; every other case — non-200
non-429 status, unparseable body, or a 200 whose JSON body is not an object —
is Failed.  The fetch itself performs a single request/response cycle. -/
theorem c5_amended_classification : ∀ (r : Response) (a : Nat),
    ((∃ c, classify r a = .success (.dict c)) ↔
      (r.status = 200 ∧ isDictB r.body = true)) ∧
    (∀ j, classify r a = .success j → r.body = some j) ∧
    ((∃ w, classify r a = .rateLimited w) ↔ r.status = 429) ∧
    ((∃ s m, classify r a = .failed s m) ↔
      (r.status ≠ 429 ∧ (r.status ≠ 200 ∨ isDictB r.body = false))) := by
  intro r a
  by_cases h429 : r.status = 429
  · have hc := classify_of_429 r a h429
    refine ⟨⟨?_, ?_⟩, ?_, ⟨fun _ => h429, fun _ => ⟨_, hc⟩⟩, ⟨?_, ?_⟩⟩
    · rintro ⟨c, h⟩; rw [hc] at h; exact absurd h (by simp)
    · rintro ⟨h200, -⟩; rw [h429] at h200; exact absurd h200 (by norm_num)
    · intro j h; rw [hc] at h; exact absurd h (by simp)
    · rintro ⟨s, m, h⟩; rw [hc] at h; exact absurd h (by simp)
    · rintro ⟨hne, -⟩; exact absurd h429 hne
  · by_cases hd : r.status = 200 ∧ isDictB r.body = true
    · obtain ⟨c, hb, hc⟩ := classify_of_succ r a ⟨hd.1, hd.2⟩
      refine ⟨⟨fun _ => hd, fun _ => ⟨c, hc⟩⟩, ?_, ⟨?_, ?_⟩, ⟨?_, ?_⟩⟩
      · intro j h
        rw [hc] at h
        have : Jsonish.dict c = j := by
          have := FetchOutcome.success.inj h
          exact this
        rw [← this, hb]
      · rintro ⟨w, h⟩; rw [hc] at h; exact absurd h (by simp)
      · intro h; exact absurd h h429
      · rintro ⟨s, m, h⟩; rw [hc] at h; exact absurd h (by simp)
      · rintro ⟨-, hor | hor⟩
        · exact absurd hd.1 hor
        · rw [hd.2] at hor; exact absurd hor (by simp)
    · have hc := classify_of_fail r a ⟨h429, hd⟩
      refine ⟨⟨?_, fun h => absurd h hd⟩, ?_, ⟨?_, fun h => absurd h h429⟩, ⟨?_, ?_⟩⟩
      · rintro ⟨c, h⟩; rw [hc] at h; exact absurd h (by simp)
      · intro j h; rw [hc] at h; exact absurd h (by simp)
      · rintro ⟨w, h⟩; rw [hc] at h; exact absurd h (by simp)
      · intro _
        refine ⟨h429, ?_⟩
        rcases not_and_or.mp hd with h | h
        · exact Or.inl h
        · exact Or.inr (by simpa using h)
      · intro _; exact ⟨r.status, _, hc⟩

/-- C5 witness: a 200 response with a JSON object body is classified as
Success carrying exactly that body. -/
theorem c5_witness :
    (⟨200, none, some (.dict 9)⟩ : Response).body = some (.dict 9) :=
  (c5_amended_classification ⟨200, none, some (.dict 9)⟩ 2).2.1 (.dict 9) (by decide)

/-- C3: retry budget and rate spacing.  For an item that is not skipped, the
run issues at most maxAttempts - a0 requests for it, where a0 is the attempt
count initialised from the manifest (0 for a fresh item); when the item ends
in GaveUp (the loop finishes without a payload and the error count is
incremented) the number of requests issued is exactly maxAttempts - a0, so a
fresh item is fetched exactly MAX_ATTEMPTS_PER_FIXTURE times and never more,
and the cumulative attempt counter ends exactly at the budget.  Moreover the
request log stays well spaced: every outbound request happens at least
MIN_INTERVAL_SECONDS after the previous one, both across one item and across
a whole run. -/
theorem c3_retry_budget :
    (∀ (cfg : Config) (oracle : Nat → Response) (u : Nat → Bool)
        (doneMap : Nat → Option Rec) (st : St) (fid : Nat),
      ¬(statusIsOk (doneMap fid) = true ∨ fid ∈ st.payloads) →
      fetchesFor fid (processItem cfg oracle u doneMap st fid) ≤
          fetchesFor fid st + (cfg.maxAttempts - prevAttempts (doneMap fid)) ∧
        (fid ∉ (processItem cfg oracle u doneMap st fid).payloads →
          (processItem cfg oracle u doneMap st fid).errCount = st.errCount + 1 ∧
          fetchesFor fid (processItem cfg oracle u doneMap st fid) =
            fetchesFor fid st + (cfg.maxAttempts - prevAttempts (doneMap fid)))) ∧
    (∀ (cfg : Config) (oracle : Nat → Response) (u : Nat → Bool)
        (doneMap : Nat → Option Rec) (st : St) (fid : Nat),
      spacedLog cfg st → spacedLog cfg (processItem cfg oracle u doneMap st fid)) ∧
    (∀ (cfg : Config) (oracle : Nat → Response) (u : Nat → Bool)
        (cached : Option (List Nat)) (resp : FixturesResponse)
        (doneLines : List LineVal) (st : St),
      runPipeline cfg oracle u cached resp doneLines initSt = .done st →
      spacedLog cfg st) :=
  ⟨fun cfg oracle u doneMap st fid h => processItem_budget cfg oracle u doneMap st fid h,
   fun cfg oracle u doneMap st fid h => processItem_spaced cfg oracle u doneMap st fid h,
   fun cfg oracle u cached resp doneLines st h =>
     runPipeline_spaced cfg oracle u cached resp doneLines st h⟩

/-- C3 witness: a fresh item whose three attempts all fail is fetched exactly
three times and counted as given up. -/
theorem c3_witness :
    (processItem cfg3 oracleFail upAll (fun _ => none) initSt 3).errCount =
        initSt.errCount + 1 ∧
      fetchesFor 3 (processItem cfg3 oracleFail upAll (fun _ => none) initSt 3) =
        fetchesFor 3 initSt +
          (cfg3.maxAttempts - prevAttempts ((fun _ => none : Nat → Option Rec) 3)) := by
  have h := c3_retry_budget.1 cfg3 oracleFail upAll (fun _ => none) initSt 3 (by decide)
  exact h.2 (by decide)

/-- C6: on a 429 response the loop sleeps exactly the computed
retry_after_seconds (the model clock advances by the wait), appends no
manifest record and attempts no upload, and goes back around the loop with
only the attempt increment already applied — the intermediate state differs
from the pre-iteration state only in the clock, the rate-limiter timestamp,
the request log, and the response cursor. -/
theorem c6_rate_limited_step :
    ∀ (cfg : Config) (oracle : Nat → Response) (u : Nat → Bool)
      (fid fuel a : Nat) (st : St),
    a < cfg.maxAttempts →
    (oracle st.oracleIdx).status = 429 →
    retryGo cfg oracle u fid (fuel + 1) a st =
        retryGo cfg oracle u fid fuel (a + 1)
          { st with
              time := sleep_for_rate_limit cfg st.time st.lastReqTs +
                (computeWait (oracle st.oracleIdx).retryAfter (a + 1) : ℚ),
              lastReqTs := some (sleep_for_rate_limit cfg st.time st.lastReqTs),
              fetchLog := st.fetchLog ++
                [(fid, sleep_for_rate_limit cfg st.time st.lastReqTs)],
              oracleIdx := st.oracleIdx + 1 } ∧
      ({ st with
          time := sleep_for_rate_limit cfg st.time st.lastReqTs +
            (computeWait (oracle st.oracleIdx).retryAfter (a + 1) : ℚ),
          lastReqTs := some (sleep_for_rate_limit cfg st.time st.lastReqTs),
          fetchLog := st.fetchLog ++
            [(fid, sleep_for_rate_limit cfg st.time st.lastReqTs)],
          oracleIdx := st.oracleIdx + 1 } : St).manifest = st.manifest ∧
      ({ st with
          time := sleep_for_rate_limit cfg st.time st.lastReqTs +
            (computeWait (oracle st.oracleIdx).retryAfter (a + 1) : ℚ),
          lastReqTs := some (sleep_for_rate_limit cfg st.time st.lastReqTs),
          fetchLog := st.fetchLog ++
            [(fid, sleep_for_rate_limit cfg st.time st.lastReqTs)],
          oracleIdx := st.oracleIdx + 1 } : St).upIdx = st.upIdx := by
  intro cfg oracle u fid fuel a st hlt h429
  have hc := classify_of_429 (oracle st.oracleIdx) (a + 1) h429
  exact ⟨retryGo_429 cfg oracle u fid fuel a st _ hlt hc, rfl, rfl⟩

/-- C6 witness: the first attempt at fixture 1 against an always-429 server
takes the 429 branch. -/
theorem c6_witness :
    retryGo cfg3 oracle429 upAll 1 2 0 initSt =
      retryGo cfg3 oracle429 upAll 1 1 1
        { initSt with
            time := sleep_for_rate_limit cfg3 initSt.time initSt.lastReqTs +
              (computeWait (oracle429 initSt.oracleIdx).retryAfter 1 : ℚ),
            lastReqTs := some (sleep_for_rate_limit cfg3 initSt.time initSt.lastReqTs),
            fetchLog := initSt.fetchLog ++
              [(1, sleep_for_rate_limit cfg3 initSt.time initSt.lastReqTs)],
            oracleIdx := initSt.oracleIdx + 1 } :=
  (c6_rate_limited_step cfg3 oracle429 upAll 1 1 0 initSt (by decide) (by decide)).1

/-- C7: partial-failure isolation.  The run returns the fatal exit exactly
when the work list is not cached and its fetch fails (non-200 status or
non-dict body); per-item failures never make it fatal.  And on a work list
of two items where the first item's whole budget of requests fails and the
next request succeeds, the run completes with the second item's payload
persisted, one success, one give-up, no skip, only error records for the
first item and an ok record for the second — no exception escapes. -/
theorem c7_partial_failure_isolation :
    (∀ (cfg : Config) (oracle : Nat → Response) (u : Nat → Bool)
        (cached : Option (List Nat)) (resp : FixturesResponse)
        (doneLines : List LineVal) (st0 : St),
      runPipeline cfg oracle u cached resp doneLines st0 = .fatal ↔
        cached = none ∧ (resp.status ≠ 200 ∨ resp.body = none)) ∧
    (∀ (cfg : Config) (oracle : Nat → Response) (u : Nat → Bool)
        (resp : FixturesResponse) (a b : Nat),
      0 < cfg.maxAttempts → a ≠ b →
      (∀ i, i < cfg.maxAttempts → failsAlways (oracle i)) →
      succResp (oracle cfg.maxAttempts) →
      ∃ st, runPipeline cfg oracle u (some [a, b]) resp [] initSt = .done st ∧
        st.payloads = [b] ∧ st.okCount = 1 ∧ st.errCount = 1 ∧ st.skipCount = 0 ∧
        (∀ r ∈ st.manifest, r.fixture_id = a → r.status = some "error") ∧
        (∃ r, r ∈ st.manifest ∧ r.fixture_id = b ∧ r.status = some "ok")) :=
  ⟨fun cfg oracle u cached resp doneLines st0 =>
     runPipeline_fatal_iff cfg oracle u cached resp doneLines st0,
   fun cfg oracle u resp a b hM hab hfail hsucc =>
     runPipeline_AB cfg oracle u resp a b hM hab hfail hsucc⟩

instance (r : Response) : Decidable (failsAlways r) :=
  decidable_of_iff (r.status ≠ 429 ∧ ¬(r.status = 200 ∧ isDictB r.body = true)) Iff.rfl

instance (r : Response) : Decidable (succResp r) :=
  decidable_of_iff (r.status = 200 ∧ isDictB r.body = true) Iff.rfl

/-- C7 witness: fixture 1 always fails, fixture 2 succeeds; the run
completes with payload [2], one success and one give-up. -/
theorem c7_witness :
    ∃ st, runPipeline cfg3 oracleAB upAll (some [1, 2]) fixResp7 [] initSt = .done st ∧
      st.payloads = [2] ∧ st.okCount = 1 ∧ st.errCount = 1 ∧ st.skipCount = 0 ∧
      (∀ r ∈ st.manifest, r.fixture_id = 1 → r.status = some "error") ∧
      (∃ r, r ∈ st.manifest ∧ r.fixture_id = 2 ∧ r.status = some "ok") :=
  c7_partial_failure_isolation.2 cfg3 oracleAB upAll fixResp7 1 2
    (by decide) (by decide) (by decide) (by decide)

/-- C8: best-effort mirroring.  Every manifest append writes the local line
first and then attempts exactly one storage upload, whatever the upload
outcome — the local manifest, payloads, request log and all counters are
unaffected by it; and an entire run produces the same result (same payloads,
manifest, counters, spacing, exit behaviour) under any two upload oracles,
differing at most in the count of swallowed upload failures. -/
theorem c8_best_effort_mirroring :
    (∀ (u : Nat → Bool) (r : Rec) (st : St),
      (append_manifest u r st).manifest = st.manifest ++ [r] ∧
      (append_manifest u r st).upIdx = st.upIdx + 1 ∧
      (append_manifest u r st).payloads = st.payloads ∧
      (append_manifest u r st).okCount = st.okCount ∧
      (append_manifest u r st).skipCount = st.skipCount ∧
      (append_manifest u r st).errCount = st.errCount ∧
      (append_manifest u r st).fetchLog = st.fetchLog) ∧
    (∀ (cfg : Config) (oracle : Nat → Response) (u1 u2 : Nat → Bool)
        (cached : Option (List Nat)) (resp : FixturesResponse)
        (doneLines : List LineVal) (st0 : St),
      scrub (runPipeline cfg oracle u1 cached resp doneLines st0) =
        scrub (runPipeline cfg oracle u2 cached resp doneLines st0)) :=
  ⟨fun u r st => ⟨by simp, by simp, by simp, by simp, by simp, by simp, by simp⟩,
   fun cfg oracle u1 u2 cached resp doneLines st0 =>
     runPipeline_scrub cfg oracle u1 u2 cached resp doneLines st0⟩

/-- C9 counterexample.  The claim says every paginated client stops exactly
when a page is empty or current >= total.  paged_get never consults the
paging metadata: on a first page with one item and paging current = total = 1
the claimed client stops after page 1 with [1], but paged_get requests page 2
and yields [1, 2].  Conversely fixtures_for_round never checks emptiness: on
an empty first page with current 1 < total 2 the claimed client stops with
[], but fixtures_for_round continues and yields [5]. -/
theorem c9_counterexample :
    paged_get [⟨[1], some ⟨some 1, some 1⟩⟩, ⟨[2], some ⟨some 2, some 2⟩⟩] = [1, 2] ∧
    collectUntilStop claimStop
        [⟨[1], some ⟨some 1, some 1⟩⟩, ⟨[2], some ⟨some 2, some 2⟩⟩] = [1] ∧
    ([1, 2] : List Nat) ≠ [1] ∧
    fixtures_for_round [⟨[], some ⟨some 1, some 2⟩⟩, ⟨[5], some ⟨some 2, some 2⟩⟩] = [5] ∧
    collectUntilStop claimStop
        [⟨[], some ⟨some 1, some 2⟩⟩, ⟨[5], some ⟨some 2, some 2⟩⟩] = [] ∧
    ([5] : List Nat) ≠ [] := by
  decide

/-- C9 (amended): each client yields the concatenation of the items of the
successive pages up to and including its own stopping page, but their
stopping conditions differ from the claimed disjunction: paged_get stops
exactly on the first page whose items collection is empty (ignoring paging
metadata), while both fixtures_for_round variants stop exactly on the first
page whose paging metadata satisfies current >= total with both values
defaulting to 1 (an empty page with current < total does not stop them). -/
theorem c9_amended_pagination : ∀ (pages : List PageResponse),
    paged_get pages = collectUntilStop (fun p => p.items.isEmpty) pages ∧
    fixtures_for_round pages = collectUntilStop pagingStop pages := by
  intro pages
  constructor
  · induction pages with
    | nil => rfl
    | cons p rest ih =>
        simp only [paged_get, collectUntilStop]
        by_cases he : p.items.isEmpty = true
        · rw [if_pos he, if_pos he, List.isEmpty_iff.mp he]
          rfl
        · rw [if_neg he, if_neg he, ih]
  · induction pages with
    | nil => rfl
    | cons p rest ih =>
        simp only [fixtures_for_round, collectUntilStop]
        by_cases hs : pagingStop p = true
        · rw [if_pos hs, if_pos hs]
        · rw [if_neg hs, if_neg hs, ih]

/-- C10: implicit cumulative attempt cap across resumed runs.  An item whose
last manifest record has status error with attempts at least the budget and
whose payload file does not exist is processed with the attempt counter
initialised from the manifest, the loop body never runs (no fetch, no
manifest record, no upload), and the item is counted as given up — the state
changes only by the error-count increment, so the budget is cumulative
across invocations sharing the RunContext. -/
theorem c10_cumulative_cap :
    ∀ (cfg : Config) (oracle : Nat → Response) (u : Nat → Bool)
      (doneMap : Nat → Option Rec) (st : St) (fid : Nat) (r : Rec) (a0 : Nat),
    doneMap fid = some r → r.status = some "error" → r.attempts = some a0 →
    cfg.maxAttempts ≤ a0 → fid ∉ st.payloads →
    processItem cfg oracle u doneMap st fid = { st with errCount := st.errCount + 1 } :=
  fun cfg oracle u doneMap st fid r a0 hdm hst hat hM hp =>
    processItem_exhausted cfg oracle u doneMap st fid r a0 hdm hst hat hM hp

/-- C10 witness: fixture 7 with a spent budget recorded in the manifest is
not fetched and only bumps the give-up count. -/
theorem c10_witness :
    processItem cfg3 oracleOk upAll c10map initSt 7 =
      { initSt with errCount := initSt.errCount + 1 } :=
  c10_cumulative_cap cfg3 oracleOk upAll c10map initSt 7
    ⟨7, some "error", some 3, none⟩ 3
    (by decide) (by decide) (by decide) (by decide) (by decide)
